import Mathlib

/-!
Shallow embedding of the FUXA device-driver runtime: the MPSClient and
EasyDrvClient protocol drivers (framed TCP stream parsing, overload guard,
polling cycle, tag resolution, disconnect) and the fengari-based LuaEngine
state extraction. Definitions are translated from the JavaScript source;
machine arithmetic is made explicit with `% 2 ^ w`. External collaborators
that are not part of the sources (zlib inflate, device-utils pipeline
functions) appear as explicit function parameters.
-/

namespace Fuxa

/-- Association-list lookup modelling JS object property read `m[k]`
(`undefined` becomes `none`). -/
def alookup {α : Type} : List (String × α) → String → Option α
  | [], _ => none
  | (k, v) :: rest, key => if k = key then some v else alookup rest key

/-- Association-list update modelling JS object property write `m[k] = v`. -/
def aupdate {α : Type} : List (String × α) → String → α → List (String × α)
  | [], key, v => [(key, v)]
  | (k, w) :: rest, key, v =>
      if k = key then (k, v) :: rest else (k, w) :: aupdate rest key v

/-- JS `String.prototype.split('.')` on the underlying character list. -/
def splitDotChars : List Char → List (List Char)
  | [] => [[]]
  | c :: cs =>
      match splitDotChars cs with
      | [] => [[c]]
      | g :: gs => if c = '.' then [] :: g :: gs else (c :: g) :: gs

/-- JS `addr.split('.')` for a Lean string. -/
def jsSplitDot (s : String) : List String :=
  (splitDotChars s.data).map List.asString

/-- Helper for `jsIndexOfDot`. -/
def indexOfDotAux : List Char → Int → Int
  | [], _ => -1
  | c :: cs, i => if c = '.' then i else indexOfDotAux cs (i + 1)

/-- JS `addr.indexOf('.')`: position of the first dot, `-1` if absent. -/
def jsIndexOfDot (s : String) : Int :=
  indexOfDotAux s.data 0

-- ---------------------------------------------------------------------------
-- Shared driver state: the `working`/`overloading` overload guard.
-- Both MPSClient._checkWorking and EasyDrvClient._checkWorking implement the
-- same transition (they differ only in the placement of a log line).
-- ---------------------------------------------------------------------------

/-- The `working` flag and `overloading` counter captured by both drivers. -/
structure WorkState where
  working : Bool
  overloading : Nat
deriving DecidableEq, Repr

/-- `_checkWorking(flag)` of MPSClient and EasyDrvClient. Returns
`(allowed, new state, emitted status events)`. On `flag = true` with a call
already in flight it rejects (`false`), increments the consecutive-rejection
counter and, when the counter reaches 3, emits `connect-busy` and resets the
counter to 0. Otherwise it stores the flag and clears the counter on release. -/
def checkWorking (flag : Bool) (s : WorkState) : Bool × WorkState × List String :=
  if flag ∧ s.working then
    let o := s.overloading + 1
    if o ≥ 3 then (false, ⟨s.working, 0⟩, ["connect-busy"])
    else (false, ⟨s.working, o⟩, [])
  else (true, ⟨flag, if flag then s.overloading else 0⟩, [])

/-- The connection-facing driver state observed by the overload guard:
the guard state plus the `connected` flag and the socket reference. -/
structure GuardedConn where
  work : WorkState
  connected : Bool
  hasSocket : Bool
deriving DecidableEq, Repr

/-- Entry of `polling()` / `connect()` while a previous call is in flight:
`if (!_checkWorking(true)) return;` (polling) or `return reject(new Error('busy'))`
(connect). When the guard rejects, the call performs no network or pipeline
work: only the guard state changes and possibly a `connect-busy` status is
emitted. Returns `none` when the guard admits the call (its body would run,
not modelled here), and `some (state, emitted)` when the call is rejected. -/
def rejectedCall (s : GuardedConn) : Option (GuardedConn × List String) :=
  let r := checkWorking true s.work
  if r.1 then none
  else some (⟨r.2.1, s.connected, s.hasSocket⟩, r.2.2)

-- ---------------------------------------------------------------------------
-- MPSClient framed protocol: P001 + 4-byte big-endian length + payload.
-- ---------------------------------------------------------------------------

namespace MPS

/-- `MAX_PAYLOAD_SIZE = 10 * 1024 * 1024` (10 MB). -/
def MAX_PAYLOAD_SIZE : Nat := 10 * 1024 * 1024

/-- Result of `_tryParseFramedResponse`: `needMore` is the JS `null`
("need more data"), `lenError` is `{ error: 'invalid frame length: …' }`,
and `ok` is `{ error: null, data: iconv.decode(bytes, 'win1251') }` carrying
the raw bytes handed to the decoder (the decode itself is a pure function of
those bytes and is not modelled). -/
inductive ParseOut where
  | needMore : ParseOut
  | lenError (payloadLen : Int) : ParseOut
  | ok (dataBytes : List Nat) : ParseOut
deriving DecidableEq, Repr

/-- `(buf[4] << 24) | (buf[5] << 16) | (buf[6] << 8) | buf[7]` evaluated with
JS 32-bit signed integer semantics (for byte-valued inputs the bitwise ors
coincide with addition; the result is reduced into [-2^31, 2^31)). -/
def payloadLen32 (b4 b5 b6 b7 : Nat) : Int :=
  let v := (b4 * 16777216 + b5 * 65536 + b6 * 256 + b7) % 4294967296
  if v < 2147483648 then (v : Int) else (v : Int) - 4294967296

/-- Does the buffer begin with the `P001` marker (`0x50 0x30 0x30 0x31`)? -/
def hasP001 (buf : List Nat) : Prop :=
  buf.getD 0 0 = 0x50 ∧ buf.getD 1 0 = 0x30 ∧ buf.getD 2 0 = 0x30 ∧ buf.getD 3 0 = 0x31

instance (buf : List Nat) : Decidable (hasP001 buf) := by
  unfold hasP001; infer_instance

/-- `_tryParseFramedResponse(buf)` of MPSClient: needs 8 header bytes; with a
`P001` marker it validates the declared length against `MAX_PAYLOAD_SIZE`
before looking at (or waiting for) the payload, then waits until
`8 + payloadLen` bytes are present and slices the payload; without the marker
the whole buffer is returned as a legacy raw response. -/
def tryParseFramedResponse (buf : List Nat) : ParseOut :=
  if buf.length < 8 then .needMore
  else if hasP001 buf then
    let pl := payloadLen32 (buf.getD 4 0) (buf.getD 5 0) (buf.getD 6 0) (buf.getD 7 0)
    if pl < 0 ∨ pl > (MAX_PAYLOAD_SIZE : Int) then .lenError pl
    else if (buf.length : Int) < 8 + pl then .needMore
    else .ok ((buf.drop 8).take pl.toNat)
  else .ok buf

/-- `(n >> sh) & 0xFF` for a non-negative length. -/
def lenByte (n sh : Nat) : Nat := n / 2 ^ sh % 256

/-- `_buildFrame(message)`: `P001` + 4-byte big-endian length + payload.
Responses on the wire use the same frame layout. -/
def buildFrame (payload : List Nat) : List Nat :=
  [0x50, 0x30, 0x30, 0x31,
   lenByte payload.length 24, lenByte payload.length 16,
   lenByte payload.length 8, lenByte payload.length 0] ++ payload

end MPS

-- ---------------------------------------------------------------------------
-- EasyDrvClient framed protocol: 's' marker, status, packet index,
-- 2-byte big-endian length, payload (optionally zlib-compressed).
-- ---------------------------------------------------------------------------

namespace EasyDrv

/-- `FRAME_MARKER = 0x73` (ASCII 's'). -/
def FRAME_MARKER : Nat := 0x73

/-- `RESP_HEADER_SIZE = 5`. -/
def RESP_HEADER_SIZE : Nat := 5

/-- `MAX_BUFFER_SIZE = 500 * 1024`. -/
def MAX_BUFFER_SIZE : Nat := 500 * 1024

/-- `AKN_ERR = 7`: error acknowledgment status byte. -/
def AKN_ERR : Nat := 7

/-- Result value of `_tryParseResponse`: `needMore` is the JS `null`,
`pacError` is `{ error: 'PAC error code …' }`, `tooLarge` is
`{ error: 'answer too large' }`, and `ok` carries the (possibly decompressed)
payload bytes of `{ error: null, data }`. -/
inductive ParseOut where
  | needMore : ParseOut
  | pacError (code : Nat) : ParseOut
  | tooLarge : ParseOut
  | ok (dataBytes : List Nat) : ParseOut
deriving DecidableEq, Repr

/-- Full outcome of one `_tryParseResponse()` call: the returned value, the
`recvBuffer` left behind, and whether the packet-index-mismatch warning was
logged. -/
structure ParseState where
  out : ParseOut
  buffer : List Nat
  warned : Bool
deriving DecidableEq, Repr

/-- `_tryDecompress(buf)`: probe `zlib.inflateSync` (an external library,
passed in as `inflate`, with `none` standing for a thrown error) and fall
back to the raw bytes when it fails or the buffer is empty. -/
def tryDecompress (inflate : List Nat → Option (List Nat)) (buf : List Nat) : List Nat :=
  if buf.length = 0 then buf
  else
    match inflate buf with
    | some r => r
    | none => buf

/-- `_tryParseResponse()` of EasyDrvClient, as a function of the current
`packetIndex` and `recvBuffer`. It discards leading bytes up to the first
`FRAME_MARKER`, handles `AKN_ERR` frames, logs (but does not fail on) a
packet-index mismatch, validates the declared size against `MAX_BUFFER_SIZE`
(resetting the buffer on violation) before waiting for the payload, and
consumes exactly one complete frame. -/
def tryParseResponse (inflate : List Nat → Option (List Nat)) (packetIndex : Nat)
    (recvBuffer : List Nat) : ParseState :=
  let buf := recvBuffer.dropWhile (fun b => b != FRAME_MARKER)
  if buf.length < RESP_HEADER_SIZE then ⟨.needMore, buf, false⟩
  else if buf.getD 1 0 = AKN_ERR then
    let errDataLen := buf.getD 3 0 * 256 + buf.getD 4 0
    let errTotalLen := RESP_HEADER_SIZE + errDataLen
    if buf.length < errTotalLen then ⟨.needMore, buf, false⟩
    else
      let errCode := if errDataLen > 0 then buf.getD 5 0 else 0
      ⟨.pacError errCode, buf.drop errTotalLen, false⟩
  else
    let warned := buf.getD 2 0 != packetIndex
    let answerSize := buf.getD 3 0 * 256 + buf.getD 4 0
    if answerSize = 0 then ⟨.ok [], buf.drop RESP_HEADER_SIZE, warned⟩
    else if answerSize > MAX_BUFFER_SIZE then ⟨.tooLarge, [], warned⟩
    else if buf.length < RESP_HEADER_SIZE + answerSize then ⟨.needMore, buf, warned⟩
    else
      ⟨.ok (tryDecompress inflate ((buf.drop RESP_HEADER_SIZE).take answerSize)),
       buf.drop (RESP_HEADER_SIZE + answerSize), warned⟩

/-- `packetIndex = (packetIndex + 1) & 0xFF` performed by `_sendFrame`. -/
def nextPacketIndex (p : Nat) : Nat := (p + 1) % 256

/-- `_sendFrame(cmdData)` header construction: returns the updated
`packetIndex` and the frame bytes
`['s', SERVICE_ID, FRAME_SINGLE, packetIndex, len >> 8 & 0xFF, len & 0xFF] ++ data`. -/
def sendFrameBytes (packetIndex : Nat) (cmdData : List Nat) : Nat × List Nat :=
  let pidx := nextPacketIndex packetIndex
  (pidx,
   [FRAME_MARKER, 1, 1, pidx, cmdData.length / 256 % 256, cmdData.length % 256] ++ cmdData)

/-- A well-formed success frame as laid out by the PAC peer:
`['s', status, idx, hi, lo] ++ payload` with `payload.length = hi * 256 + lo`. -/
def okFrame (status idx hi lo : Nat) (payload : List Nat) : List Nat :=
  [FRAME_MARKER, status, idx, hi, lo] ++ payload

end EasyDrv

-- ---------------------------------------------------------------------------
-- JS values: the JSON / Lua-derived state trees held in `deviceStates`
-- (MPSClient) and `luaState` (EasyDrvClient).
-- ---------------------------------------------------------------------------

mutual
/-- A JavaScript value as it occurs in the cached state trees. -/
inductive JVal where
  | jnull : JVal
  | jbool (b : Bool) : JVal
  | jnum (n : Int) : JVal
  | jstr (s : String) : JVal
  | jobj (o : JObj) : JVal
deriving DecidableEq, Repr

/-- The (ordered) own properties of a JS object. -/
inductive JObj where
  | nil : JObj
  | cons (k : String) (v : JVal) (rest : JObj) : JObj
deriving DecidableEq, Repr
end

/-- Property read `o[k]` on an object (`undefined` becomes `none`). -/
def JObj.find : JObj → String → Option JVal
  | .nil, _ => none
  | .cons k v rest, key => if k = key then some v else JObj.find rest key

/-- JS `typeof val === 'object'` (true for `null` and objects). -/
def JVal.isObjectType : JVal → Bool
  | .jnull => true
  | .jobj _ => true
  | _ => false

/-- JS truthiness of a value (`null`, `false`, `0`, `''` are falsy). -/
def JVal.truthy : JVal → Bool
  | .jnull => false
  | .jbool b => b
  | .jnum n => n != 0
  | .jstr s => s != ""
  | .jobj _ => true

/-- Property read `v[k]` on an arbitrary value: objects look up their
properties, everything else yields `undefined`. (Exotic JS string properties
such as `length` or numeric indices are not modelled; the drivers only read
named state-tree branches.) -/
def jsProp : JVal → String → Option JVal
  | .jobj o, key => JObj.find o key
  | _, _ => none

/-- The navigation loop shared by both `_resolveTagValue` implementations:
`for (…) { if (val && typeof val === 'object' && val[p] !== undefined) val = val[p];
else return undefined; }`. A truthy value of object type is exactly a
(non-null) object. -/
def navLoop : JVal → List String → Option JVal
  | val, [] => some val
  | val, p :: ps =>
      if val.truthy ∧ val.isObjectType = true then
        match jsProp val p with
        | some v => navLoop v ps
        | none => none
      else none

-- ---------------------------------------------------------------------------
-- Tags and the drivers' tag-address resolution.
-- ---------------------------------------------------------------------------

/-- A configured tag as read by the drivers (`data.tags[id]`); absent string
fields are modelled as `""` (both are falsy in the JS source). `daq` is the
opaque DAQ settings bag, only passed through. -/
structure Tag where
  id : String
  name : String
  address : String
  type : String
  daq : String
deriving DecidableEq, Repr

/-- `var addr = tag.address || tag.name || '';` -/
def tagAddress (tag : Tag) : String :=
  if tag.address = "" then (if tag.name = "" then "" else tag.name) else tag.address

namespace MPS

/-- `_resolveTagValue(tag)` of MPSClient. Address format
`DeviceName.UnitKey.TagName` or `DeviceName.UnitKey.Properties.PropName`:
fewer than 3 segments resolve to nothing; the first segment selects
`deviceStates[devName]`, whose `Units[unitKey]` member is the base of the
remaining navigation; a final value is returned only if it is not of object
type. -/
def resolveTagValue (deviceStates : JObj) (tag : Tag) : Option JVal :=
  let parts := jsSplitDot (tagAddress tag)
  if parts.length < 3 then none
  else
    match JObj.find deviceStates (parts.getD 0 "") with
    | none => none
    | some devState =>
        if ¬ devState.truthy then none
        else
          match jsProp devState "Units" with
          | none => none
          | some units =>
              if ¬ units.truthy then none
              else
                match jsProp units (parts.getD 1 "") with
                | none => none
                | some unit =>
                    if ¬ unit.truthy then none
                    else
                      match navLoop unit (parts.drop 2) with
                      | none => none
                      | some v => if v.isObjectType then none else some v

end MPS

namespace EasyDrv

/-- The dotted-path and `tags`-fallback part of EasyDrvClient's
`_resolveTagValue`, reached when the direct top-level lookup did not return
a primitive. -/
def resolveRest (luaState : JObj) (addr : String) : Option JVal :=
  if jsIndexOfDot addr > 0 then
    match navLoop (.jobj luaState) (jsSplitDot addr) with
    | none => none
    | some v => if v.isObjectType then none else some v
  else
    match JObj.find luaState "tags" with
    | some tags => if tags.truthy then jsProp tags addr else none
    | none => none

/-- `_resolveTagValue(tag)` of EasyDrvClient: first the whole address as a
literal top-level key (returned if defined and not of object type), then —
for addresses with a dot at position > 0 — navigation along the dotted path
from the root of `luaState`, otherwise the `luaState.tags[addr]` fallback. -/
def resolveTagValue (luaState : JObj) (tag : Tag) : Option JVal :=
  let addr := tagAddress tag
  match JObj.find luaState addr with
  | some v => if ¬ v.isObjectType then some v else resolveRest luaState addr
  | none => resolveRest luaState addr

end EasyDrv

-- ---------------------------------------------------------------------------
-- The polling cycle's per-tag loop, shared verbatim by MPSClient.polling and
-- EasyDrvClient.polling (they differ only in how `_resolveTagValue` reads the
-- cached state, abstracted here as the `resolve` parameter).
-- `deviceUtils.tagValueCompose` and `deviceUtils.tagDaqToSave` live in
-- device-utils.js, which is not among the sources; they are passed in as
-- functions. Per the spec (§4.4), the compose step may fail with a pipeline
-- error (modelled as `Except`), while the history-write-worthiness check
-- `shouldPersist` is a total predicate.
-- ---------------------------------------------------------------------------

/-- A cached tag sample: `varsValue[id] = { id, value, rawValue, type,
changed, timestamp, daq }`. `value = JVal.jnull` models the JS `null`. -/
structure Entry where
  id : String
  value : JVal
  rawValue : JVal
  type : String
  changed : Bool
  timestamp : Nat
  daq : String
deriving DecidableEq, Repr

/-- The body of `for (var id in data.tags) { … }` for one tag, acting on the
pair (varsValue, changed-accumulator). A `resolve` miss is the
`if (rawValue === undefined) continue;`, a `compose` failure is the per-tag
`catch` (logged, nothing else happens). On success the new entry is stored
with `changed = tagChanged`, the DAQ check `this.addDaq &&
deviceUtils.tagDaqToSave(varsValue[id], timestamp)` inspects that entry, and
then `varsValue[id].changed = false` mutates it in place — because
`changed[id] = varsValue[id]` stored a reference, both the cache and the
changed-set end up holding the entry with `changed = false`. -/
def processTag (compose : Tag → JVal → JVal → Except String JVal)
    (daqSave : Entry → Nat → Bool) (resolve : Tag → Option JVal)
    (hasAddDaq : Bool) (ts : Nat) (st : List (String × Entry) × List (String × Entry))
    (tag : Tag) : List (String × Entry) × List (String × Entry) :=
  let cache := st.1
  let changedAcc := st.2
  match resolve tag with
  | none => (cache, changedAcc)
  | some rawValue =>
      let prev : JVal :=
        match alookup cache tag.id with
        | some e => e.value
        | none => JVal.jnull
      match compose tag rawValue prev with
      | .error _ => (cache, changedAcc)
      | .ok value =>
          let tagChanged : Bool :=
            match alookup cache tag.id with
            | none => true
            | some e => e.value != value
          let entry : Entry := ⟨tag.id, value, rawValue, tag.type, tagChanged, ts, tag.daq⟩
          let save := hasAddDaq && daqSave entry ts
          let entry2 : Entry := { entry with changed := false }
          (aupdate cache tag.id entry2,
           if save then aupdate changedAcc tag.id entry2 else changedAcc)

/-- The whole per-tag loop of `polling()`, folding `processTag` over the
configured tags, starting from the current cache and an empty changed-set. -/
def pollTags (compose : Tag → JVal → JVal → Except String JVal)
    (daqSave : Entry → Nat → Bool) (resolve : Tag → Option JVal)
    (hasAddDaq : Bool) (ts : Nat) (tags : List Tag)
    (cache : List (String × Entry)) : List (String × Entry) × List (String × Entry) :=
  tags.foldl (processTag compose daqSave resolve hasAddDaq ts) (cache, [])

/-- Observable outcome of one completed `polling()` cycle body (after the
state query): the updated cache (emitted as the `device-value:changed`
event payload), the changed-set handed to `addDaq`, whether the value event
was emitted, and whether `addDaq` was invoked
(`this.addDaq && !utils.isEmptyObject(changed)`). -/
structure CycleResult where
  cache : List (String × Entry)
  changedSet : List (String × Entry)
  emittedValues : Bool
  daqCalled : Bool
deriving DecidableEq, Repr

/-- One completed `polling()` cycle over the configured tags: run the tag
loop, emit `device-value:changed` with the full cache, and hand the non-empty
changed-set to `addDaq`. -/
def pollingCycle (compose : Tag → JVal → JVal → Except String JVal)
    (daqSave : Entry → Nat → Bool) (resolve : Tag → Option JVal)
    (hasAddDaq : Bool) (ts : Nat) (tags : List Tag)
    (cache : List (String × Entry)) : CycleResult :=
  let r := pollTags compose daqSave resolve hasAddDaq ts tags cache
  ⟨r.1, r.2, true, hasAddDaq && !r.2.isEmpty⟩

/-- The per-tag outcome in isolation: the entry that the loop stores in the
cache for a tag, as a function of the tag's previously cached entry only.
`none` means the tag was skipped (unresolvable address) or its pipeline step
failed, leaving the cache untouched at that id. -/
def stepEntry (compose : Tag → JVal → JVal → Except String JVal)
    (resolve : Tag → Option JVal) (ts : Nat) (tag : Tag)
    (prevE : Option Entry) : Option Entry :=
  match resolve tag with
  | none => none
  | some rawValue =>
      let prev : JVal :=
        match prevE with
        | some e => e.value
        | none => JVal.jnull
      match compose tag rawValue prev with
      | .error _ => none
      | .ok value => some ⟨tag.id, value, rawValue, tag.type, false, ts, tag.daq⟩

/-- The per-tag outcome for the changed-set: the entry recorded for the DAQ
hand-off, present exactly when the step succeeded and the write-worthiness
check (evaluated on the entry while its `changed` flag still held
`tagChanged`) passed. -/
def stepSaved (compose : Tag → JVal → JVal → Except String JVal)
    (daqSave : Entry → Nat → Bool) (resolve : Tag → Option JVal)
    (hasAddDaq : Bool) (ts : Nat) (tag : Tag) (prevE : Option Entry) : Option Entry :=
  match resolve tag with
  | none => none
  | some rawValue =>
      let prev : JVal :=
        match prevE with
        | some e => e.value
        | none => JVal.jnull
      match compose tag rawValue prev with
      | .error _ => none
      | .ok value =>
          let tagChanged : Bool :=
            match prevE with
            | none => true
            | some e => e.value != value
          let entry : Entry := ⟨tag.id, value, rawValue, tag.type, tagChanged, ts, tag.daq⟩
          if hasAddDaq && daqSave entry ts then some { entry with changed := false }
          else none

-- ---------------------------------------------------------------------------
-- disconnect(): safe from any state, always resolves, clears the cache.
-- ---------------------------------------------------------------------------

/-- An event emitted by a driver: a `device-status:changed` status string or a
`device-value:changed` payload. -/
inductive Ev where
  | status (s : String) : Ev
  | values (vals : List (String × Entry)) : Ev
deriving DecidableEq, Repr

/-- `_clearVarsValue()`: set every cached entry's `value` to `null` and emit
the values event (the emission is recorded by the callers below). -/
def clearVarsValue (vars : List (String × Entry)) : List (String × Entry) :=
  vars.map (fun p => (p.1, { p.2 with value := JVal.jnull }))

namespace MPS

/-- The MPSClient driver state touched by `disconnect()`. -/
structure DrvState where
  work : WorkState
  hasSocket : Bool
  connected : Bool
  errRetryCount : Nat
  hasBrowseData : Bool
  deviceStates : JObj
  varsValue : List (String × Entry)
  lastStatus : String
deriving DecidableEq, Repr

/-- `disconnect()` of MPSClient. The try block releases the working flag and
performs best-effort socket writes/teardown; `socketOpsThrow` models any of
those socket operations throwing (the exception is caught and logged by the
outer catch). The finally block — reached in every case — nulls the socket,
clears flags and caches, emits `connect-off`, clears the value cache (which
emits the values event) and resolves with `true`. Returns
`(new state, emitted events, resolution value)`. -/
def disconnect (_socketOpsThrow : Bool) (s : DrvState) : DrvState × List Ev × Bool :=
  let work1 := (checkWorking false s.work).2.1
  let vars2 := clearVarsValue s.varsValue
  ({ work := work1, hasSocket := false, connected := false, errRetryCount := 0,
     hasBrowseData := false, deviceStates := .nil, varsValue := vars2,
     lastStatus := "connect-off" },
   [Ev.status "connect-off", Ev.values vars2],
   true)

end MPS

namespace EasyDrv

/-- The EasyDrvClient driver state touched by `disconnect()`. -/
structure DrvState where
  work : WorkState
  hasSocket : Bool
  connected : Bool
  pacInfoReceived : Bool
  gotDevices : Bool
  errRetryCount : Nat
  luaEngineOpen : Bool
  luaState : JObj
  varsValue : List (String × Entry)
  lastStatus : String
deriving DecidableEq, Repr

/-- `disconnect()` of EasyDrvClient. In the try block the socket teardown may
throw (`socketOpsThrow`, caught by the outer catch — in that case
`luaEngine.close()` is skipped); with no socket, or with a well-behaved one,
the Lua engine is closed and dropped. The finally block always runs: socket
nulled, flags cleared, `luaState` reset, `connect-off` emitted, cache cleared
(emitting the values event), resolution with `true`. -/
def disconnect (socketOpsThrow : Bool) (s : DrvState) : DrvState × List Ev × Bool :=
  let work1 := (checkWorking false s.work).2.1
  let luaOpen1 := if s.hasSocket && socketOpsThrow then s.luaEngineOpen else false
  let vars2 := clearVarsValue s.varsValue
  ({ work := work1, hasSocket := false, connected := false, pacInfoReceived := false,
     gotDevices := false, errRetryCount := 0, luaEngineOpen := luaOpen1,
     luaState := .nil, varsValue := vars2, lastStatus := "connect-off" },
   [Ev.status "connect-off", Ev.values vars2],
   true)

end EasyDrv

-- ---------------------------------------------------------------------------
-- LuaEngine: depth-bounded extraction of the Lua state into a plain JS tree.
-- Lua tables live on a heap (a table value is a reference into it), so cyclic
-- tables are representable; `_readStackValue`/`_readTable` walk them with an
-- increasing depth counter cut off above 10.
-- ---------------------------------------------------------------------------

namespace Lua

/-- A Lua table key as classified by `lua_type`: string, number, or anything
else (skipped by `_readTable`). -/
inductive LuaKey where
  | kstr (s : String) : LuaKey
  | knum (n : Int) : LuaKey
  | kother : LuaKey
deriving DecidableEq, Repr

/-- A Lua value; `ltable r` is a reference into the heap, so self- and
mutually-referential (cyclic) tables are representable. `lother` covers the
types mapped to `undefined` by the default case (functions, userdata, …). -/
inductive LuaVal where
  | lnil : LuaVal
  | lbool (b : Bool) : LuaVal
  | lnum (n : Int) : LuaVal
  | lstr (s : String) : LuaVal
  | ltable (ref : Nat) : LuaVal
  | lother : LuaVal
deriving DecidableEq, Repr

/-- The Lua heap: table `r` has entry list `heap.getD r []`. -/
abbrev Heap := List (List (LuaKey × LuaVal))

/-- Entries of table `ref`. -/
def tableEntries (heap : Heap) (ref : Nat) : List (LuaKey × LuaVal) :=
  heap.getD ref []

/-- A key of the resulting plain JS object (string keys stay strings, number
keys stay numbers, as produced by `to_jsstring` / `lua_tonumber`). -/
inductive JsKey where
  | str (s : String) : JsKey
  | num (n : Int) : JsKey
deriving DecidableEq, Repr

mutual
/-- A plain JS tree as returned by `LuaEngine.get`: string/number/boolean/null
leaves and nested objects (Lua floats are modelled as integers; their exact
numeric type is irrelevant to the structure). -/
inductive JsVal where
  | null : JsVal
  | bool (b : Bool) : JsVal
  | num (n : Int) : JsVal
  | str (s : String) : JsVal
  | obj (o : JsObjList) : JsVal
deriving DecidableEq, Repr

/-- The field list of a plain JS object. -/
inductive JsObjList where
  | nil : JsObjList
  | cons (k : JsKey) (v : JsVal) (rest : JsObjList) : JsObjList
deriving DecidableEq, Repr
end

/-- `result[key] = value` performed only when the value is not `undefined`
(`if (value !== undefined) result[key] = value`). -/
def pushEntry (k : JsKey) (v : Option JsVal) (rest : JsObjList) : JsObjList :=
  match v with
  | some value => .cons k value rest
  | none => rest

mutual
/-- `LuaEngine._readStackValue(index, depth)`: depth-limited conversion of one
Lua value (`undefined` is `none`). Nil, booleans, numbers and strings map to
leaves; a table is read via `_readTable` at `depth + 1`; other types yield
`undefined`. -/
def readStackValue (heap : Heap) (v : LuaVal) (depth : Nat) : Option JsVal :=
  if _h : depth > 10 then none
  else
    match v with
    | .lnil => some .null
    | .lbool b => some (.bool b)
    | .lnum n => some (.num n)
    | .lstr s => some (.str s)
    | .ltable r => readTable heap r (depth + 1)
    | .lother => none
termination_by (34 - 3 * min depth 11, 0)
decreasing_by
  apply Prod.Lex.left
  omega

/-- `LuaEngine._readTable(index, depth)`: depth-limited conversion of a Lua
table to a plain JS object by iterating its entries with `lua_next`. -/
def readTable (heap : Heap) (ref : Nat) (depth : Nat) : Option JsVal :=
  if _h : depth > 10 then none
  else some (.obj (readEntries heap (tableEntries heap ref) depth))
termination_by (36 - 3 * min depth 11, 0)
decreasing_by
  apply Prod.Lex.left
  omega

/-- The `lua_next` loop inside `_readTable`: string and number keys are kept,
other key types are skipped (`continue`), and each value is read back via
`_readStackValue` at the same depth, dropped when `undefined`. -/
def readEntries (heap : Heap) (entries : List (LuaKey × LuaVal)) (depth : Nat) : JsObjList :=
  match entries with
  | [] => .nil
  | (k, v) :: rest =>
      match k with
      | .kstr s => pushEntry (.str s) (readStackValue heap v depth) (readEntries heap rest depth)
      | .knum n => pushEntry (.num n) (readStackValue heap v depth) (readEntries heap rest depth)
      | .kother => readEntries heap rest depth
termination_by (35 - 3 * min depth 11, entries.length)
decreasing_by
  all_goals first
    | (apply Prod.Lex.left
       omega)
    | (apply Prod.Lex.right
       simp)
end

/-- `LuaEngine.get(name)`: read one global and convert it starting at depth 0. -/
def getGlobal (heap : Heap) (global : LuaVal) : Option JsVal :=
  readStackValue heap global 0

mutual
/-- Nesting depth of a plain JS tree: leaves have depth 0, an object is one
deeper than its deepest field value. -/
def jsDepth : JsVal → Nat
  | .obj o => 1 + objDepth o
  | _ => 0

/-- Depth of the deepest value in a field list. -/
def objDepth : JsObjList → Nat
  | .nil => 0
  | .cons _ v rest => max (jsDepth v) (objDepth rest)
end

end Lua

-- ---------------------------------------------------------------------------
-- Claim-side dotted-path semantics, used to compare the drivers' resolvers
-- against the specification's reading ("the value at that path exists iff
-- every path segment exists; a final primitive is returned").
-- ---------------------------------------------------------------------------

/-- Pure navigation through object nodes: the value sitting at a (possibly
empty) segment path below a value, with no truthiness or fallback rules. -/
def pureNav : JVal → List String → Option JVal
  | v, [] => some v
  | .jobj o, p :: ps =>
      (match JObj.find o p with
        | some w => pureNav w ps
        | none => none)
  | _, _ :: _ => none

/-- The value at a dotted path below the root state object. -/
def pathValue (root : JObj) (segs : List String) : Option JVal :=
  pureNav (.jobj root) segs

/-- A primitive (leaf) value: neither `null` nor an object. -/
def isPrimitive (v : JVal) : Bool := !v.isObjectType

-- ===========================================================================
-- Helper lemmas
-- ===========================================================================

theorem getD_take {l : List Nat} {k i : Nat} (h : i < k) :
    (l.take k).getD i 0 = l.getD i 0 := by
  induction l generalizing k i with
  | nil => simp
  | cons a as ih =>
      cases k with
      | zero => omega
      | succ k =>
          cases i with
          | zero => simp
          | succ i =>
              simp only [List.take, List.getD_cons_succ]
              exact ih (by omega)

theorem getD_append_left {l₁ l₂ : List Nat} {i : Nat} (h : i < l₁.length) :
    (l₁ ++ l₂).getD i 0 = l₁.getD i 0 := by
  induction l₁ generalizing i with
  | nil => simp at h
  | cons a as ih =>
      cases i with
      | zero => simp
      | succ i =>
          simp only [List.cons_append, List.getD_cons_succ]
          exact ih (by simpa using Nat.lt_of_succ_lt_succ h)

theorem dropWhile_of_head_stop {p : Nat → Bool} {l : List Nat}
    (hne : l ≠ []) (h : p (l.getD 0 0) = false) : l.dropWhile p = l := by
  cases l with
  | nil => simp at hne
  | cons a as => simp_all [List.dropWhile]

/-- Dropping a run of garbage for which the predicate holds. -/
theorem dropWhile_append_of_all {p : Nat → Bool} {l₁ l₂ : List Nat}
    (h : ∀ b ∈ l₁, p b = true) : (l₁ ++ l₂).dropWhile p = l₂.dropWhile p := by
  induction l₁ with
  | nil => rfl
  | cons a as ih =>
      have ha := h a (by simp)
      simp only [List.cons_append, List.dropWhile]
      rw [ha]
      exact ih (fun b hb => h b (by simp [hb]))

/-- A buffer whose first byte is the frame marker loses nothing to the
garbage-skipping loop. -/
theorem easy_skip_id {buf : List Nat} (hlen : 1 ≤ buf.length)
    (h0 : buf.getD 0 0 = EasyDrv.FRAME_MARKER) :
    buf.dropWhile (fun b => b != EasyDrv.FRAME_MARKER) = buf := by
  apply dropWhile_of_head_stop
  · intro hnil; rw [hnil] at hlen; simp at hlen
  · show (buf.getD 0 0 != EasyDrv.FRAME_MARKER) = false
    rw [h0]
    simp

/-- Parsing a buffer that holds exactly one complete well-formed success frame
consumes the whole frame and yields its (decompression-probed) payload; the
packet-index comparison only determines the warning flag. -/
theorem parse_okFrame (inflate : List Nat → Option (List Nat)) (pidx status idx hi lo : Nat)
    (payload : List Nat) (hstatus : status ≠ EasyDrv.AKN_ERR) (hhi : hi < 256)
    (hlo : lo < 256) (hlen : payload.length = hi * 256 + lo) :
    EasyDrv.tryParseResponse inflate pidx (EasyDrv.okFrame status idx hi lo payload) =
      ⟨EasyDrv.ParseOut.ok (EasyDrv.tryDecompress inflate payload), [], idx != pidx⟩ := by
  have hL : (EasyDrv.okFrame status idx hi lo payload).length = 5 + payload.length := by
    simp [EasyDrv.okFrame]
    omega
  have g0 : (EasyDrv.okFrame status idx hi lo payload).getD 0 0 = EasyDrv.FRAME_MARKER := by
    rw [EasyDrv.okFrame, getD_append_left (by simp)]
    rfl
  have g1 : (EasyDrv.okFrame status idx hi lo payload).getD 1 0 = status := by
    rw [EasyDrv.okFrame, getD_append_left (by simp)]
    rfl
  have g2 : (EasyDrv.okFrame status idx hi lo payload).getD 2 0 = idx := by
    rw [EasyDrv.okFrame, getD_append_left (by simp)]
    rfl
  have g3 : (EasyDrv.okFrame status idx hi lo payload).getD 3 0 = hi := by
    rw [EasyDrv.okFrame, getD_append_left (by simp)]
    rfl
  have g4 : (EasyDrv.okFrame status idx hi lo payload).getD 4 0 = lo := by
    rw [EasyDrv.okFrame, getD_append_left (by simp)]
    rfl
  have hd5 : (EasyDrv.okFrame status idx hi lo payload).drop 5 = payload := by
    rw [EasyDrv.okFrame]
    exact List.drop_left' (by simp)
  have hdAll : ∀ k, (EasyDrv.okFrame status idx hi lo payload).drop (5 + k) = payload.drop k := by
    intro k
    rw [EasyDrv.okFrame]
    exact @List.drop_append Nat [EasyDrv.FRAME_MARKER, status, idx, hi, lo] payload k
  unfold EasyDrv.tryParseResponse
  rw [easy_skip_id (by rw [hL]; omega) g0]
  simp only [g1, g2, g3, g4, hL]
  rw [if_neg (by simp only [EasyDrv.RESP_HEADER_SIZE]; omega), if_neg hstatus]
  by_cases hz : hi * 256 + lo = 0
  · rw [if_pos hz]
    have hpl : payload = [] := by
      rw [← List.length_eq_zero]
      omega
    subst hpl
    simp only [EasyDrv.RESP_HEADER_SIZE]
    rw [hd5]
    simp [EasyDrv.tryDecompress]
  · rw [if_neg hz, if_neg (by simp only [EasyDrv.MAX_BUFFER_SIZE]; omega),
      if_neg (by simp only [EasyDrv.RESP_HEADER_SIZE]; omega)]
    simp only [EasyDrv.RESP_HEADER_SIZE]
    rw [hd5, hdAll, ← hlen, List.take_length, List.drop_length]

-- ===========================================================================
-- Claim theorems
-- ===========================================================================

/-- C2: in both frame parsers the declared payload length is validated against
the hard maximum (10 MB for MPSClient, 500 KB for EasyDrvClient) before any
payload is sliced or waited for: whenever the header declares a length above
the maximum (or, for MPSClient, a negative 32-bit value), the parser returns
an error result — with no requirement that the payload bytes have arrived —
and EasyDrvClient additionally resets its receive buffer to empty. -/
theorem claim2_oversize_length_rejected :
    (∀ buf : List Nat, 8 ≤ buf.length → MPS.hasP001 buf →
      (MPS.payloadLen32 (buf.getD 4 0) (buf.getD 5 0) (buf.getD 6 0) (buf.getD 7 0) < 0 ∨
        MPS.payloadLen32 (buf.getD 4 0) (buf.getD 5 0) (buf.getD 6 0) (buf.getD 7 0) >
          (MPS.MAX_PAYLOAD_SIZE : Int)) →
      MPS.tryParseFramedResponse buf =
        MPS.ParseOut.lenError
          (MPS.payloadLen32 (buf.getD 4 0) (buf.getD 5 0) (buf.getD 6 0) (buf.getD 7 0))) ∧
    (∀ (inflate : List Nat → Option (List Nat)) (pidx : Nat) (buf : List Nat),
      buf.getD 0 0 = EasyDrv.FRAME_MARKER →
      EasyDrv.RESP_HEADER_SIZE ≤ buf.length →
      buf.getD 1 0 ≠ EasyDrv.AKN_ERR →
      buf.getD 3 0 * 256 + buf.getD 4 0 > EasyDrv.MAX_BUFFER_SIZE →
      EasyDrv.tryParseResponse inflate pidx buf =
        ⟨EasyDrv.ParseOut.tooLarge, [], buf.getD 2 0 != pidx⟩) := by
  constructor
  · intro buf hlen hp hover
    unfold MPS.tryParseFramedResponse
    rw [if_neg (by omega), if_pos hp, if_pos hover]
  · intro inflate pidx buf h0 hlen hstatus hover
    unfold EasyDrv.tryParseResponse
    rw [easy_skip_id (by unfold EasyDrv.RESP_HEADER_SIZE at hlen; omega) h0]
    rw [if_neg (by omega), if_neg hstatus, if_neg (by omega), if_pos hover]

/-- Witness for C2 at concrete buffers: an MPS header declaring
`0xFF000000` (negative as a signed 32-bit value, i.e. above the maximum as an
unsigned length) with no payload bytes present, and an EasyDrv header
declaring `2100 * 256 = 537600 > 512000` bytes. -/
theorem claim2_oversize_length_rejected_witness :
    MPS.tryParseFramedResponse [0x50, 0x30, 0x30, 0x31, 0xFF, 0, 0, 0] =
      MPS.ParseOut.lenError (-16777216) ∧
    EasyDrv.tryParseResponse (fun _ => none) 1 [0x73, 12, 1, 2100, 0] =
      ⟨EasyDrv.ParseOut.tooLarge, [], false⟩ := by
  constructor
  · have h := claim2_oversize_length_rejected.1
      [0x50, 0x30, 0x30, 0x31, 0xFF, 0, 0, 0] (by decide) (by decide) (by decide)
    rw [h]; decide
  · have h := claim2_oversize_length_rejected.2 (fun _ => none) 1
      [0x73, 12, 1, 2100, 0] (by decide) (by decide) (by decide) (by decide)
    rw [h]
    decide

/-- C9: in the EasyDrvClient framed write path, `_sendFrame` advances the
packet index modulo 256 on every call (wrapping from 255 back to 0) and
places the new index in byte 3 of the outbound frame; on the read side the
expected packet index influences only the mismatch warning — the parsed
result and the consumed buffer are identical for any expected index, and a
complete success frame with a mismatching echoed index is still parsed and
returned (with the warning flagged), never turned into a failure. -/
theorem claim9_packet_index_mod256_mismatch_warns :
    (EasyDrv.nextPacketIndex 255 = 0) ∧
    (∀ p : Nat, p + 1 < 256 → EasyDrv.nextPacketIndex p = p + 1) ∧
    (∀ (pidx : Nat) (cmd : List Nat),
      (EasyDrv.sendFrameBytes pidx cmd).1 = EasyDrv.nextPacketIndex pidx ∧
      (EasyDrv.sendFrameBytes pidx cmd).2.getD 3 0 = EasyDrv.nextPacketIndex pidx) ∧
    (∀ (inflate : List Nat → Option (List Nat)) (p q : Nat) (buf : List Nat),
      (EasyDrv.tryParseResponse inflate p buf).out = (EasyDrv.tryParseResponse inflate q buf).out ∧
      (EasyDrv.tryParseResponse inflate p buf).buffer =
        (EasyDrv.tryParseResponse inflate q buf).buffer) ∧
    (∀ (inflate : List Nat → Option (List Nat)) (pidx status idx hi lo : Nat)
      (payload : List Nat), status ≠ EasyDrv.AKN_ERR → hi < 256 → lo < 256 →
      payload.length = hi * 256 + lo → idx ≠ pidx →
      EasyDrv.tryParseResponse inflate pidx (EasyDrv.okFrame status idx hi lo payload) =
        ⟨EasyDrv.ParseOut.ok (EasyDrv.tryDecompress inflate payload), [], true⟩) := by
  refine ⟨rfl, ?_, ?_, ?_, ?_⟩
  · intro p h
    unfold EasyDrv.nextPacketIndex
    omega
  · intro pidx cmd
    exact ⟨rfl, rfl⟩
  · intro inflate p q buf
    unfold EasyDrv.tryParseResponse
    dsimp only
    split_ifs <;> exact ⟨rfl, rfl⟩
  · intro inflate pidx status idx hi lo payload hstatus hhi hlo hlen hne
    rw [parse_okFrame inflate pidx status idx hi lo payload hstatus hhi hlo hlen]
    simp [hne]

/-- Witness for C9 at concrete inputs: index 41 advances to 42 and lands in
frame byte 3; a frame echoing index 9 while 1 is expected still yields its
payload with only the warning set. -/
theorem claim9_packet_index_mod256_mismatch_warns_witness :
    (41 : Nat) + 1 < 256 ∧ EasyDrv.nextPacketIndex 41 = 42 ∧
    (EasyDrv.sendFrameBytes 41 [7]).2.getD 3 0 = 42 ∧
    EasyDrv.tryParseResponse (fun _ => none) 1 (EasyDrv.okFrame 12 9 0 1 [77]) =
      ⟨EasyDrv.ParseOut.ok [77], [], true⟩ := by
  refine ⟨by decide, ?_, ?_, ?_⟩
  · exact claim9_packet_index_mod256_mismatch_warns.2.1 41 (by decide)
  · have h := (claim9_packet_index_mod256_mismatch_warns.2.2.1 41 [7]).2
    rw [h]
    decide
  · have h := claim9_packet_index_mod256_mismatch_warns.2.2.2.2
      (fun _ => none) 1 12 9 0 1 [77] (by decide) (by decide) (by decide) (by decide) (by decide)
    rw [h]
    decide

/-- C1 counterexample: starting from a driver that is working (a poll in
flight), connected, with a live socket, three consecutive guarded calls are
all rejected; the third emits `connect-busy` — but the resulting state still
has `connected = true` and the socket present: the driver performs no
force-disconnect, contradicting the claim. -/
theorem claim1_counterexample_no_force_disconnect :
    rejectedCall ⟨⟨true, 0⟩, true, true⟩ = some (⟨⟨true, 1⟩, true, true⟩, []) ∧
    rejectedCall ⟨⟨true, 1⟩, true, true⟩ = some (⟨⟨true, 2⟩, true, true⟩, []) ∧
    rejectedCall ⟨⟨true, 2⟩, true, true⟩ =
      some (⟨⟨true, 0⟩, true, true⟩, ["connect-busy"]) ∧
    (⟨⟨true, 0⟩, true, true⟩ : GuardedConn).connected = true ∧
    (⟨⟨true, 0⟩, true, true⟩ : GuardedConn).hasSocket = true := by
  decide

/-- C1 (amended): a `polling()` or `connect()` call arriving while a previous
call is in flight is rejected without performing any network or pipeline
work; the first two consecutive rejections only increment the counter and
emit nothing, and the third emits a `connect-busy` status and resets the
counter to 0 — the driver does not disconnect: `connected` and the socket are
left untouched. -/
theorem claim1_overload_guard_amended (s : GuardedConn)
    (hw : s.work.working = true) (ho : s.work.overloading = 0) :
    rejectedCall s = some (⟨⟨true, 1⟩, s.connected, s.hasSocket⟩, []) ∧
    rejectedCall ⟨⟨true, 1⟩, s.connected, s.hasSocket⟩ =
      some (⟨⟨true, 2⟩, s.connected, s.hasSocket⟩, []) ∧
    rejectedCall ⟨⟨true, 2⟩, s.connected, s.hasSocket⟩ =
      some (⟨⟨true, 0⟩, s.connected, s.hasSocket⟩, ["connect-busy"]) := by
  obtain ⟨⟨w, o⟩, c, k⟩ := s
  simp only at hw ho
  subst hw
  subst ho
  refine ⟨?_, ?_, ?_⟩ <;> simp [rejectedCall, checkWorking]

/-- Witness for the amended C1 at a concrete working state. -/
theorem claim1_overload_guard_amended_witness :
    rejectedCall ⟨⟨true, 0⟩, true, true⟩ = some (⟨⟨true, 1⟩, true, true⟩, []) ∧
    rejectedCall ⟨⟨true, 1⟩, true, true⟩ = some (⟨⟨true, 2⟩, true, true⟩, []) ∧
    rejectedCall ⟨⟨true, 2⟩, true, true⟩ =
      some (⟨⟨true, 0⟩, true, true⟩, ["connect-busy"]) :=
  claim1_overload_guard_amended ⟨⟨true, 0⟩, true, true⟩ rfl rfl

/-- Every entry of a cleared cache holds the JS `null` value. -/
theorem clearVarsValue_all_null (vars : List (String × Entry)) :
    (clearVarsValue vars).all (fun p => p.2.value == JVal.jnull) = true := by
  induction vars with
  | nil => rfl
  | cons a as ih => simp_all [clearVarsValue]

/-- C6: `disconnect()` of both drivers is safe to call from any prior state
(never connected, already disconnected, socket present or absent, socket
teardown throwing or not): the promise always resolves (with `true`), and
afterwards the socket reference is null, `connected` is false, every entry of
the cached values map holds the value `null`, and a `connect-off` status
event has been emitted. -/
theorem claim6_disconnect_safe_from_any_state :
    (∀ (thro : Bool) (s : MPS.DrvState),
      (MPS.disconnect thro s).2.2 = true ∧
      (MPS.disconnect thro s).1.hasSocket = false ∧
      (MPS.disconnect thro s).1.connected = false ∧
      (MPS.disconnect thro s).1.varsValue.all (fun p => p.2.value == JVal.jnull) = true ∧
      (MPS.disconnect thro s).2.1.contains (Ev.status "connect-off") = true) ∧
    (∀ (thro : Bool) (s : EasyDrv.DrvState),
      (EasyDrv.disconnect thro s).2.2 = true ∧
      (EasyDrv.disconnect thro s).1.hasSocket = false ∧
      (EasyDrv.disconnect thro s).1.connected = false ∧
      (EasyDrv.disconnect thro s).1.varsValue.all (fun p => p.2.value == JVal.jnull) = true ∧
      (EasyDrv.disconnect thro s).2.1.contains (Ev.status "connect-off") = true) := by
  constructor
  · intro thro s
    refine ⟨rfl, rfl, rfl, clearVarsValue_all_null s.varsValue, ?_⟩
    simp [MPS.disconnect, List.contains]
  · intro thro s
    refine ⟨rfl, rfl, rfl, clearVarsValue_all_null s.varsValue, ?_⟩
    simp [EasyDrv.disconnect, List.contains]

/-- Skipping garbage is idempotent: a buffer that already starts at the
marker (or is exhausted) is left unchanged by a second pass. -/
theorem dropWhile_self {p : Nat → Bool} (l : List Nat) :
    (l.dropWhile p).dropWhile p = l.dropWhile p := by
  induction l with
  | nil => rfl
  | cons a as ih =>
      by_cases h : p a
      · simp [List.dropWhile, h, ih]
      · simp [List.dropWhile, h]

/-- `_tryParseResponse` only looks at the buffer after the garbage-skipping
loop. -/
theorem tryParseResponse_dropWhile (inflate : List Nat → Option (List Nat))
    (pidx : Nat) (buf : List Nat) :
    EasyDrv.tryParseResponse inflate pidx buf =
      EasyDrv.tryParseResponse inflate pidx
        (buf.dropWhile (fun b => b != EasyDrv.FRAME_MARKER)) := by
  unfold EasyDrv.tryParseResponse
  rw [dropWhile_self]

/-- C3 counterexample: with arbitrary garbage the claim fails in both
drivers. MPSClient performs no marker search at all: one stray `0x00` before
a complete valid `P001` frame makes the parser return the whole buffer as a
legacy raw response instead of the frame's payload `[0x41]`. EasyDrvClient's
skip loop stops at any `0x73` byte: one stray `0x73` before a complete valid
frame makes the parser misread the header and wait for 1280 more bytes
instead of yielding the payload `[0x41]`. -/
theorem claim3_counterexample_garbage_not_skipped :
    MPS.tryParseFramedResponse ([0x00] ++ MPS.buildFrame [0x41]) =
      MPS.ParseOut.ok [0x00, 0x50, 0x30, 0x30, 0x31, 0, 0, 0, 1, 0x41] ∧
    MPS.ParseOut.ok [0x00, 0x50, 0x30, 0x30, 0x31, 0, 0, 0, 1, 0x41] ≠
      MPS.ParseOut.ok [0x41] ∧
    EasyDrv.tryParseResponse (fun _ => none) 5 ([0x73] ++ EasyDrv.okFrame 12 5 0 1 [0x41]) =
      ⟨EasyDrv.ParseOut.needMore, [0x73, 0x73, 12, 5, 0, 1, 0x41], true⟩ ∧
    EasyDrv.ParseOut.needMore ≠
      EasyDrv.ParseOut.ok (EasyDrv.tryDecompress (fun _ => none) [0x41]) := by
  refine ⟨by decide, by decide, by decide, by decide⟩

/-- C3 (amended): EasyDrvClient locates the frame marker and discards the
bytes before it, yielding exactly the valid frame's payload, provided none of
the garbage bytes equals the marker byte `0x73`; MPSClient performs no marker
search — a buffer of at least 8 bytes that does not begin with `P001` is
returned whole as a legacy raw response. -/
theorem claim3_desync_recovery_amended :
    (∀ (inflate : List Nat → Option (List Nat)) (pidx status idx hi lo : Nat)
      (payload garbage : List Nat),
      (∀ b ∈ garbage, b ≠ EasyDrv.FRAME_MARKER) →
      status ≠ EasyDrv.AKN_ERR → hi < 256 → lo < 256 →
      payload.length = hi * 256 + lo →
      EasyDrv.tryParseResponse inflate pidx
          (garbage ++ EasyDrv.okFrame status idx hi lo payload) =
        ⟨EasyDrv.ParseOut.ok (EasyDrv.tryDecompress inflate payload), [], idx != pidx⟩) ∧
    (∀ buf : List Nat, 8 ≤ buf.length → ¬ MPS.hasP001 buf →
      MPS.tryParseFramedResponse buf = MPS.ParseOut.ok buf) := by
  constructor
  · intro inflate pidx status idx hi lo payload garbage hg hstatus hhi hlo hlen
    have h1 : (garbage ++ EasyDrv.okFrame status idx hi lo payload).dropWhile
        (fun b => b != EasyDrv.FRAME_MARKER) =
        (EasyDrv.okFrame status idx hi lo payload).dropWhile
          (fun b => b != EasyDrv.FRAME_MARKER) := by
      apply dropWhile_append_of_all
      intro b hb
      simpa using hg b hb
    have h2 : (EasyDrv.okFrame status idx hi lo payload).dropWhile
        (fun b => b != EasyDrv.FRAME_MARKER) = EasyDrv.okFrame status idx hi lo payload := by
      apply easy_skip_id
      · simp [EasyDrv.okFrame]
      · rw [EasyDrv.okFrame, getD_append_left (by simp)]
        rfl
    rw [tryParseResponse_dropWhile, h1, h2]
    exact parse_okFrame inflate pidx status idx hi lo payload hstatus hhi hlo hlen
  · intro buf hlen hnp
    unfold MPS.tryParseFramedResponse
    rw [if_neg (by omega), if_neg hnp]

/-- Witness for the amended C3: three garbage bytes before a valid EasyDrv
frame are discarded and the payload `[65]` is produced; an 8-byte MPS buffer
without the `P001` marker is returned whole. -/
theorem claim3_desync_recovery_amended_witness :
    EasyDrv.tryParseResponse (fun _ => none) 3 ([0, 1, 2] ++ EasyDrv.okFrame 12 3 0 1 [65]) =
      ⟨EasyDrv.ParseOut.ok [65], [], false⟩ ∧
    MPS.tryParseFramedResponse [9, 9, 9, 9, 0, 0, 0, 0] =
      MPS.ParseOut.ok [9, 9, 9, 9, 0, 0, 0, 0] := by
  constructor
  · have h := claim3_desync_recovery_amended.1 (fun _ => none) 3 12 3 0 1 [65] [0, 1, 2]
      (by decide) (by decide) (by decide) (by decide) (by decide)
    rw [h]
    decide
  · exact claim3_desync_recovery_amended.2 [9, 9, 9, 9, 0, 0, 0, 0] (by decide) (by decide)

theorem buildFrame_length (payload : List Nat) :
    (MPS.buildFrame payload).length = 8 + payload.length := by
  simp [MPS.buildFrame]
  omega

theorem buildFrame_hasP001 (payload : List Nat) : MPS.hasP001 (MPS.buildFrame payload) := by
  refine ⟨?_, ?_, ?_, ?_⟩ <;>
    (rw [MPS.buildFrame, getD_append_left (by simp)]; rfl)

theorem buildFrame_getD4 (payload : List Nat) :
    (MPS.buildFrame payload).getD 4 0 = MPS.lenByte payload.length 24 := by
  rw [MPS.buildFrame, getD_append_left (by simp)]
  rfl

theorem buildFrame_getD5 (payload : List Nat) :
    (MPS.buildFrame payload).getD 5 0 = MPS.lenByte payload.length 16 := by
  rw [MPS.buildFrame, getD_append_left (by simp)]
  rfl

theorem buildFrame_getD6 (payload : List Nat) :
    (MPS.buildFrame payload).getD 6 0 = MPS.lenByte payload.length 8 := by
  rw [MPS.buildFrame, getD_append_left (by simp)]
  rfl

theorem buildFrame_getD7 (payload : List Nat) :
    (MPS.buildFrame payload).getD 7 0 = MPS.lenByte payload.length 0 := by
  rw [MPS.buildFrame, getD_append_left (by simp)]
  rfl

/-- The big-endian length bytes of `_buildFrame` decode back to the payload
length under the JS 32-bit arithmetic of the read side. -/
theorem payloadLen32_lenBytes (n : Nat) (h : n ≤ MPS.MAX_PAYLOAD_SIZE) :
    MPS.payloadLen32 (MPS.lenByte n 24) (MPS.lenByte n 16)
      (MPS.lenByte n 8) (MPS.lenByte n 0) = (n : Int) := by
  unfold MPS.MAX_PAYLOAD_SIZE at h
  unfold MPS.payloadLen32 MPS.lenByte
  have e24 : (2 : Nat) ^ 24 = 16777216 := by norm_num
  have e16 : (2 : Nat) ^ 16 = 65536 := by norm_num
  have e8 : (2 : Nat) ^ 8 = 256 := by norm_num
  have e0 : (2 : Nat) ^ 0 = 1 := by norm_num
  rw [e24, e16, e8, e0]
  have hv : (n / 16777216 % 256 * 16777216 + n / 65536 % 256 * 65536 +
      n / 256 % 256 * 256 + n / 1 % 256) % 4294967296 = n := by
    omega
  simp only [hv]
  rw [if_pos (by exact_mod_cast (by omega : n < 2147483648))]

/-- Full parse of a well-formed MPS frame: exactly the payload bytes. -/
theorem mps_parse_buildFrame (payload : List Nat) (h : payload.length ≤ MPS.MAX_PAYLOAD_SIZE) :
    MPS.tryParseFramedResponse (MPS.buildFrame payload) = MPS.ParseOut.ok payload := by
  unfold MPS.tryParseFramedResponse
  rw [if_neg (by rw [buildFrame_length]; omega), if_pos (buildFrame_hasP001 payload)]
  simp only [buildFrame_getD4, buildFrame_getD5, buildFrame_getD6, buildFrame_getD7,
    payloadLen32_lenBytes payload.length h, buildFrame_length]
  rw [if_neg (by omega)]
  rw [if_neg (by omega)]
  have hd : (MPS.buildFrame payload).drop 8 = payload := by
    rw [MPS.buildFrame]
    exact List.drop_left' (by simp)
  rw [hd]
  simp

/-- C4: for every complete valid frame, the parser applied to any strict
prefix of the frame (i.e. after any partial delivery, 1-byte chunks
included) returns null and — for EasyDrvClient, which owns a persistent
receive buffer — consumes nothing, while the parse of the full byte
sequence yields exactly the frame's payload. Hence every delivery schedule
produces the frame exactly once, byte-identical to single-chunk delivery,
and the parser returns null while fewer than header-plus-declared-length
bytes have arrived. -/
theorem claim4_incremental_reassembly :
    (∀ payload : List Nat, payload.length ≤ MPS.MAX_PAYLOAD_SIZE →
      MPS.tryParseFramedResponse (MPS.buildFrame payload) = MPS.ParseOut.ok payload ∧
      (∀ k, k < (MPS.buildFrame payload).length →
        MPS.tryParseFramedResponse ((MPS.buildFrame payload).take k) =
          MPS.ParseOut.needMore)) ∧
    (∀ (inflate : List Nat → Option (List Nat)) (pidx status idx hi lo : Nat)
      (payload : List Nat), status ≠ EasyDrv.AKN_ERR → hi < 256 → lo < 256 →
      payload.length = hi * 256 + lo →
      EasyDrv.tryParseResponse inflate pidx (EasyDrv.okFrame status idx hi lo payload) =
        ⟨EasyDrv.ParseOut.ok (EasyDrv.tryDecompress inflate payload), [], idx != pidx⟩ ∧
      (∀ k, k < (EasyDrv.okFrame status idx hi lo payload).length →
        (EasyDrv.tryParseResponse inflate pidx
            ((EasyDrv.okFrame status idx hi lo payload).take k)).out =
          EasyDrv.ParseOut.needMore ∧
        (EasyDrv.tryParseResponse inflate pidx
            ((EasyDrv.okFrame status idx hi lo payload).take k)).buffer =
          (EasyDrv.okFrame status idx hi lo payload).take k)) := by
  constructor
  · intro payload h
    refine ⟨mps_parse_buildFrame payload h, ?_⟩
    intro k hk
    rw [buildFrame_length] at hk
    have htk : ((MPS.buildFrame payload).take k).length = k := by
      rw [List.length_take, buildFrame_length]
      omega
    unfold MPS.tryParseFramedResponse
    by_cases hk8 : k < 8
    · rw [if_pos (by omega)]
    · rw [if_neg (by omega)]
      rw [if_pos (show MPS.hasP001 ((MPS.buildFrame payload).take k) by
        obtain ⟨p0, p1, p2, p3⟩ := buildFrame_hasP001 payload
        exact ⟨by rw [getD_take (by omega)]; exact p0,
          by rw [getD_take (by omega)]; exact p1,
          by rw [getD_take (by omega)]; exact p2,
          by rw [getD_take (by omega)]; exact p3⟩)]
      rw [getD_take (by omega : 4 < k), getD_take (by omega : 5 < k),
        getD_take (by omega : 6 < k), getD_take (by omega : 7 < k)]
      simp only [buildFrame_getD4, buildFrame_getD5, buildFrame_getD6, buildFrame_getD7,
        payloadLen32_lenBytes payload.length h, htk]
      rw [if_neg (by omega)]
      rw [if_pos (by omega)]
  · intro inflate pidx status idx hi lo payload hstatus hhi hlo hlen
    refine ⟨parse_okFrame inflate pidx status idx hi lo payload hstatus hhi hlo hlen, ?_⟩
    intro k hk
    have hfl : (EasyDrv.okFrame status idx hi lo payload).length = 5 + payload.length := by
      simp [EasyDrv.okFrame]
      omega
    rw [hfl] at hk
    by_cases hk0 : k = 0
    · subst hk0
      rw [List.take_zero]
      exact ⟨rfl, rfl⟩
    · have htk : ((EasyDrv.okFrame status idx hi lo payload).take k).length = k := by
        rw [List.length_take, hfl]
        omega
      have hskip : ((EasyDrv.okFrame status idx hi lo payload).take k).dropWhile
          (fun b => b != EasyDrv.FRAME_MARKER) =
          (EasyDrv.okFrame status idx hi lo payload).take k := by
        apply easy_skip_id (by omega)
        rw [getD_take (by omega), EasyDrv.okFrame, getD_append_left (by simp)]
        rfl
      unfold EasyDrv.tryParseResponse
      rw [hskip]
      by_cases hk5 : k < 5
      · rw [if_pos (by rw [htk]; exact hk5)]
        exact ⟨rfl, rfl⟩
      · have hg1 : ((EasyDrv.okFrame status idx hi lo payload).take k).getD 1 0 = status := by
          rw [getD_take (by omega), EasyDrv.okFrame, getD_append_left (by simp)]
          rfl
        have hg3 : ((EasyDrv.okFrame status idx hi lo payload).take k).getD 3 0 = hi := by
          rw [getD_take (by omega), EasyDrv.okFrame, getD_append_left (by simp)]
          rfl
        have hg4 : ((EasyDrv.okFrame status idx hi lo payload).take k).getD 4 0 = lo := by
          rw [getD_take (by omega), EasyDrv.okFrame, getD_append_left (by simp)]
          rfl
        rw [if_neg (by rw [htk]; simp only [EasyDrv.RESP_HEADER_SIZE]; omega)]
        rw [hg1, hg3, hg4]
        rw [if_neg hstatus]
        have hz : ¬ hi * 256 + lo = 0 := by omega
        rw [if_neg hz, if_neg (by simp only [EasyDrv.MAX_BUFFER_SIZE]; omega)]
        rw [if_pos (by rw [htk]; simp only [EasyDrv.RESP_HEADER_SIZE]; omega)]
        exact ⟨rfl, rfl⟩

/-- Witness for C4: the 3-byte payload `[65, 66, 67]` in each framing; the
full frames parse to exactly that payload and the 1-byte-short prefixes
parse to null without consuming anything. -/
theorem claim4_incremental_reassembly_witness :
    MPS.tryParseFramedResponse (MPS.buildFrame [65, 66, 67]) =
      MPS.ParseOut.ok [65, 66, 67] ∧
    MPS.tryParseFramedResponse ((MPS.buildFrame [65, 66, 67]).take 10) =
      MPS.ParseOut.needMore ∧
    EasyDrv.tryParseResponse (fun _ => none) 2 (EasyDrv.okFrame 12 2 0 3 [65, 66, 67]) =
      ⟨EasyDrv.ParseOut.ok [65, 66, 67], [], false⟩ ∧
    (EasyDrv.tryParseResponse (fun _ => none) 2
        ((EasyDrv.okFrame 12 2 0 3 [65, 66, 67]).take 7)).out =
      EasyDrv.ParseOut.needMore := by
  have hm := claim4_incremental_reassembly.1 [65, 66, 67] (by decide)
  have he := claim4_incremental_reassembly.2 (fun _ => none) 2 12 2 0 3 [65, 66, 67]
    (by decide) (by decide) (by decide) (by decide)
  refine ⟨hm.1, hm.2 10 (by decide), ?_, (he.2 7 (by decide)).1⟩
  rw [he.1]
  decide

theorem alookup_aupdate_self {α : Type} (m : List (String × α)) (k : String) (v : α) :
    alookup (aupdate m k v) k = some v := by
  induction m with
  | nil => simp [aupdate, alookup]
  | cons a as ih =>
      by_cases h : a.1 = k
      · simp [aupdate, alookup, h]
      · simp [aupdate, alookup, h, ih]

theorem alookup_aupdate_ne {α : Type} (m : List (String × α)) (k k' : String) (v : α)
    (h : k' ≠ k) : alookup (aupdate m k v) k' = alookup m k' := by
  induction m with
  | nil =>
      simp only [aupdate, alookup]
      rw [if_neg (Ne.symm h)]
  | cons a as ih =>
      by_cases ha : a.1 = k
      · simp only [aupdate, if_pos ha, alookup]
        rw [if_neg (fun hh : a.1 = k' => h (by rw [← hh]; exact ha)),
          if_neg (fun hh : a.1 = k' => h (by rw [← hh]; exact ha))]
      · simp only [aupdate, if_neg ha]
        by_cases ha' : a.1 = k'
        · simp [alookup, ha']
        · simp [alookup, ha', ih]

theorem aupdate_all {α : Type} (P : String × α → Bool) (m : List (String × α))
    (k : String) (v : α) (hm : m.all P = true) (hv : P (k, v) = true) :
    (aupdate m k v).all P = true := by
  induction m with
  | nil => simp [aupdate, hv]
  | cons a as ih =>
      simp only [List.all_cons, Bool.and_eq_true] at hm
      by_cases h : a.1 = k
      · simp only [aupdate, if_pos h, List.all_cons, Bool.and_eq_true]
        exact ⟨by rw [← h] at hv; simpa using hv, hm.2⟩
      · simp only [aupdate, if_neg h, List.all_cons, Bool.and_eq_true]
        exact ⟨hm.1, ih hm.2⟩

/-- `processTag` leaves both maps untouched at every id other than the
processed tag's. -/
theorem processTag_lookup_ne (compose : Tag → JVal → JVal → Except String JVal)
    (daqSave : Entry → Nat → Bool) (resolve : Tag → Option JVal) (hasAddDaq : Bool)
    (ts : Nat) (st : List (String × Entry) × List (String × Entry)) (tag : Tag)
    (id : String) (h : id ≠ tag.id) :
    alookup (processTag compose daqSave resolve hasAddDaq ts st tag).1 id =
      alookup st.1 id ∧
    alookup (processTag compose daqSave resolve hasAddDaq ts st tag).2 id =
      alookup st.2 id := by
  unfold processTag
  dsimp only
  cases hres : resolve tag with
  | none => exact ⟨rfl, rfl⟩
  | some raw =>
      dsimp only
      cases hc : compose tag raw (match alookup st.1 tag.id with
          | some e => e.value
          | none => JVal.jnull) with
      | error e => exact ⟨rfl, rfl⟩
      | ok value =>
          dsimp only
          refine ⟨alookup_aupdate_ne _ _ _ _ h, ?_⟩
          split
          · exact alookup_aupdate_ne _ _ _ _ h
          · rfl

/-- `processTag` at the processed tag's own id stores exactly the isolated
per-tag outcomes `stepEntry` / `stepSaved` (falling back to the previous
content when the step is a no-op). -/
theorem processTag_lookup_self (compose : Tag → JVal → JVal → Except String JVal)
    (daqSave : Entry → Nat → Bool) (resolve : Tag → Option JVal) (hasAddDaq : Bool)
    (ts : Nat) (st : List (String × Entry) × List (String × Entry)) (tag : Tag) :
    alookup (processTag compose daqSave resolve hasAddDaq ts st tag).1 tag.id =
      (stepEntry compose resolve ts tag (alookup st.1 tag.id)).or (alookup st.1 tag.id) ∧
    alookup (processTag compose daqSave resolve hasAddDaq ts st tag).2 tag.id =
      (stepSaved compose daqSave resolve hasAddDaq ts tag (alookup st.1 tag.id)).or
        (alookup st.2 tag.id) := by
  unfold processTag stepEntry stepSaved
  dsimp only
  cases hres : resolve tag with
  | none => exact ⟨rfl, rfl⟩
  | some raw =>
      dsimp only
      cases hc : compose tag raw (match alookup st.1 tag.id with
          | some e => e.value
          | none => JVal.jnull) with
      | error e => exact ⟨rfl, rfl⟩
      | ok value =>
          dsimp only
          constructor
          · rw [alookup_aupdate_self]
            rfl
          · by_cases hsave : (hasAddDaq && daqSave ⟨tag.id, value, raw, tag.type,
                (match alookup st.1 tag.id with
                  | none => true
                  | some e => e.value != value), ts, tag.daq⟩ ts) = true
            · rw [if_pos hsave, if_pos hsave, alookup_aupdate_self]
              rfl
            · rw [if_neg hsave, if_neg hsave]
              rfl

/-- Ids not named by any remaining tag pass through the whole fold
untouched, in both the cache and the changed-set. -/
theorem pollFold_lookup_notmem (compose : Tag → JVal → JVal → Except String JVal)
    (daqSave : Entry → Nat → Bool) (resolve : Tag → Option JVal) (hasAddDaq : Bool)
    (ts : Nat) (tags : List Tag) (st : List (String × Entry) × List (String × Entry))
    (id : String) (h : ∀ t ∈ tags, t.id ≠ id) :
    alookup (tags.foldl (processTag compose daqSave resolve hasAddDaq ts) st).1 id =
      alookup st.1 id ∧
    alookup (tags.foldl (processTag compose daqSave resolve hasAddDaq ts) st).2 id =
      alookup st.2 id := by
  induction tags generalizing st with
  | nil => exact ⟨rfl, rfl⟩
  | cons t tsl ih =>
      have hne : id ≠ t.id := fun he => h t (by simp) he.symm
      have hstep := processTag_lookup_ne compose daqSave resolve hasAddDaq ts st t id hne
      have hrest := ih (processTag compose daqSave resolve hasAddDaq ts st t)
        (fun u hu => h u (by simp [hu]))
      rw [List.foldl_cons]
      exact ⟨hrest.1.trans hstep.1, hrest.2.trans hstep.2⟩

/-- Per-id characterization of the whole tag loop: with pairwise-distinct tag
ids, the cache and changed-set at an id after the loop are determined by the
unique tag carrying that id, applied to that id's previous cache entry
alone. -/
theorem pollFold_lookup (compose : Tag → JVal → JVal → Except String JVal)
    (daqSave : Entry → Nat → Bool) (resolve : Tag → Option JVal) (hasAddDaq : Bool)
    (ts : Nat) (tags : List Tag) (st : List (String × Entry) × List (String × Entry))
    (id : String) (hnd : (tags.map Tag.id).Nodup) :
    alookup (tags.foldl (processTag compose daqSave resolve hasAddDaq ts) st).1 id =
      (match tags.find? (fun t => t.id == id) with
        | some t => (stepEntry compose resolve ts t (alookup st.1 id)).or (alookup st.1 id)
        | none => alookup st.1 id) ∧
    alookup (tags.foldl (processTag compose daqSave resolve hasAddDaq ts) st).2 id =
      (match tags.find? (fun t => t.id == id) with
        | some t => (stepSaved compose daqSave resolve hasAddDaq ts t
            (alookup st.1 id)).or (alookup st.2 id)
        | none => alookup st.2 id) := by
  induction tags generalizing st with
  | nil => exact ⟨rfl, rfl⟩
  | cons t tsl ih =>
      simp only [List.map_cons, List.nodup_cons] at hnd
      rw [List.foldl_cons]
      by_cases hid : t.id = id
      · have hfind : (t :: tsl).find? (fun u => u.id == id) = some t := by
          rw [List.find?_cons_of_pos _ (by simp [hid])]
        rw [hfind]
        have hnot : ∀ u ∈ tsl, u.id ≠ id := by
          intro u hu he
          apply hnd.1
          have hm : u.id ∈ List.map Tag.id tsl := List.mem_map_of_mem Tag.id hu
          rwa [he, ← hid] at hm
        have hrest := pollFold_lookup_notmem compose daqSave resolve hasAddDaq ts tsl
          (processTag compose daqSave resolve hasAddDaq ts st t) id hnot
        have hstep := processTag_lookup_self compose daqSave resolve hasAddDaq ts st t
        rw [hid] at hstep
        exact ⟨hrest.1.trans hstep.1, hrest.2.trans hstep.2⟩
      · have hfind : (t :: tsl).find? (fun u => u.id == id) =
            tsl.find? (fun u => u.id == id) := by
          rw [List.find?_cons_of_neg _ (by simp [hid])]
        rw [hfind]
        have hstep := processTag_lookup_ne compose daqSave resolve hasAddDaq ts st t id
          (fun he => hid he.symm)
        have hrest := ih (processTag compose daqSave resolve hasAddDaq ts st t) hnd.2
        rw [hrest.1, hrest.2, hstep.1, hstep.2]
        exact ⟨rfl, rfl⟩

theorem stepEntry_congr (compose compose' : Tag → JVal → JVal → Except String JVal)
    (resolve : Tag → Option JVal) (ts : Nat) (u : Tag) (p : Option Entry)
    (h : compose u = compose' u) :
    stepEntry compose resolve ts u p = stepEntry compose' resolve ts u p := by
  unfold stepEntry
  rw [h]

theorem stepSaved_congr (compose compose' : Tag → JVal → JVal → Except String JVal)
    (daqSave : Entry → Nat → Bool) (resolve : Tag → Option JVal) (hasAddDaq : Bool)
    (ts : Nat) (u : Tag) (p : Option Entry) (h : compose u = compose' u) :
    stepSaved compose daqSave resolve hasAddDaq ts u p =
      stepSaved compose' daqSave resolve hasAddDaq ts u p := by
  unfold stepSaved
  rw [h]

/-- C5: inside `polling()`, a per-tag failure is caught and logged for that
tag only. For any two compose pipelines that agree on every tag but `t`, with
the pipeline failing on `t` (an exception in the tag's resolve/compose/cache
step): every other tag's final cache and changed-set entries are identical to
the run without the failure, the failing tag's cache entry is left untouched
and contributes nothing to the DAQ hand-off, and the cycle still reaches the
value-event emission in both runs. -/
theorem claim5_tag_error_isolated
    (compose compose' : Tag → JVal → JVal → Except String JVal)
    (daqSave : Entry → Nat → Bool) (resolve : Tag → Option JVal) (hasAddDaq : Bool)
    (ts : Nat) (tags : List Tag) (cache : List (String × Entry)) (t : Tag)
    (hnd : (tags.map Tag.id).Nodup) (hmem : t ∈ tags)
    (hagree : ∀ u : Tag, u ≠ t → compose u = compose' u)
    (hfail : ∀ raw prev, ∃ msg, compose t raw prev = Except.error msg) :
    (∀ id, id ≠ t.id →
      alookup (pollingCycle compose daqSave resolve hasAddDaq ts tags cache).cache id =
        alookup (pollingCycle compose' daqSave resolve hasAddDaq ts tags cache).cache id ∧
      alookup (pollingCycle compose daqSave resolve hasAddDaq ts tags cache).changedSet id =
        alookup (pollingCycle compose' daqSave resolve hasAddDaq ts tags cache).changedSet id) ∧
    alookup (pollingCycle compose daqSave resolve hasAddDaq ts tags cache).cache t.id =
      alookup cache t.id ∧
    alookup (pollingCycle compose daqSave resolve hasAddDaq ts tags cache).changedSet t.id =
      none ∧
    (pollingCycle compose daqSave resolve hasAddDaq ts tags cache).emittedValues = true ∧
    (pollingCycle compose' daqSave resolve hasAddDaq ts tags cache).emittedValues = true := by
  have hstepnone : ∀ p : Option Entry, stepEntry compose resolve ts t p = none := by
    intro p
    unfold stepEntry
    cases hres : resolve t with
    | none => rfl
    | some raw =>
        dsimp only
        obtain ⟨msg, hmsg⟩ := hfail raw (match p with
          | some e => e.value
          | none => JVal.jnull)
        rw [hmsg]
  have hsavednone : ∀ p : Option Entry,
      stepSaved compose daqSave resolve hasAddDaq ts t p = none := by
    intro p
    unfold stepSaved
    cases hres : resolve t with
    | none => rfl
    | some raw =>
        dsimp only
        obtain ⟨msg, hmsg⟩ := hfail raw (match p with
          | some e => e.value
          | none => JVal.jnull)
        rw [hmsg]
  refine ⟨?_, ?_, ?_, rfl, rfl⟩
  · intro id hid
    have h1 := pollFold_lookup compose daqSave resolve hasAddDaq ts tags (cache, []) id hnd
    have h2 := pollFold_lookup compose' daqSave resolve hasAddDaq ts tags (cache, []) id hnd
    unfold pollingCycle pollTags
    dsimp only
    rw [h1.1, h1.2, h2.1, h2.2]
    cases hf : tags.find? (fun u => u.id == id) with
    | none => exact ⟨rfl, rfl⟩
    | some u =>
        have hu : u ≠ t := by
          intro he
          have hpred := List.find?_some hf
          rw [he] at hpred
          simp only [beq_iff_eq] at hpred
          exact hid hpred.symm
        dsimp only
        rw [stepEntry_congr compose compose' resolve ts u _ (hagree u hu),
          stepSaved_congr compose compose' daqSave resolve hasAddDaq ts u _ (hagree u hu)]
        exact ⟨rfl, rfl⟩
  · have h1 := pollFold_lookup compose daqSave resolve hasAddDaq ts tags (cache, []) t.id hnd
    unfold pollingCycle pollTags
    dsimp only
    rw [h1.1]
    cases hf : tags.find? (fun u => u.id == t.id) with
    | none =>
        exact absurd (List.find?_eq_none.mp hf t hmem) (by simp)
    | some u =>
        have hueq : u = t := List.inj_on_of_nodup_map hnd (List.mem_of_find?_eq_some hf)
          hmem (by simpa using List.find?_some hf)
        subst hueq
        dsimp only
        rw [hstepnone]
        rfl
  · have h1 := pollFold_lookup compose daqSave resolve hasAddDaq ts tags (cache, []) t.id hnd
    unfold pollingCycle pollTags
    dsimp only
    rw [h1.2]
    cases hf : tags.find? (fun u => u.id == t.id) with
    | none =>
        exact absurd (List.find?_eq_none.mp hf t hmem) (by simp)
    | some u =>
        have hueq : u = t := List.inj_on_of_nodup_map hnd (List.mem_of_find?_eq_some hf)
          hmem (by simpa using List.find?_some hf)
        subst hueq
        dsimp only
        rw [hsavednone]
        rfl

/-- Witness for C5 with two tags `a`, `b`: a pipeline that throws on `b`
leaves `a`'s results identical to the non-throwing pipeline's, leaves `b`'s
cache entry untouched, keeps `b` out of the DAQ set, and both cycles emit. -/
theorem claim5_tag_error_isolated_witness :
    alookup (pollingCycle
        (fun u _ _ => if u.id = "b" then Except.error "boom" else Except.ok (JVal.jnum 1))
        (fun _ _ => true) (fun _ => some (JVal.jnum 4)) true 7
        [⟨"a", "A", "d.u.x", "number", "q"⟩, ⟨"b", "B", "d.u.y", "number", "q"⟩] []).cache "a" =
      alookup (pollingCycle
        (fun u _ _ =>
          if u = ⟨"b", "B", "d.u.y", "number", "q"⟩ then Except.ok (JVal.jnum 2)
          else if u.id = "b" then Except.error "boom" else Except.ok (JVal.jnum 1))
        (fun _ _ => true) (fun _ => some (JVal.jnum 4)) true 7
        [⟨"a", "A", "d.u.x", "number", "q"⟩, ⟨"b", "B", "d.u.y", "number", "q"⟩] []).cache "a" ∧
    alookup (pollingCycle
        (fun u _ _ => if u.id = "b" then Except.error "boom" else Except.ok (JVal.jnum 1))
        (fun _ _ => true) (fun _ => some (JVal.jnum 4)) true 7
        [⟨"a", "A", "d.u.x", "number", "q"⟩, ⟨"b", "B", "d.u.y", "number", "q"⟩] []).cache "b" =
      none ∧
    alookup (pollingCycle
        (fun u _ _ => if u.id = "b" then Except.error "boom" else Except.ok (JVal.jnum 1))
        (fun _ _ => true) (fun _ => some (JVal.jnum 4)) true 7
        [⟨"a", "A", "d.u.x", "number", "q"⟩, ⟨"b", "B", "d.u.y", "number", "q"⟩]
        []).changedSet "b" = none ∧
    (pollingCycle
        (fun u _ _ => if u.id = "b" then Except.error "boom" else Except.ok (JVal.jnum 1))
        (fun _ _ => true) (fun _ => some (JVal.jnum 4)) true 7
        [⟨"a", "A", "d.u.x", "number", "q"⟩, ⟨"b", "B", "d.u.y", "number", "q"⟩]
        []).emittedValues = true := by
  have h := claim5_tag_error_isolated
    (fun u _ _ => if u.id = "b" then Except.error "boom" else Except.ok (JVal.jnum 1))
    (fun u _ _ =>
      if u = ⟨"b", "B", "d.u.y", "number", "q"⟩ then Except.ok (JVal.jnum 2)
      else if u.id = "b" then Except.error "boom" else Except.ok (JVal.jnum 1))
    (fun _ _ => true) (fun _ => some (JVal.jnum 4)) true 7
    [⟨"a", "A", "d.u.x", "number", "q"⟩, ⟨"b", "B", "d.u.y", "number", "q"⟩] []
    ⟨"b", "B", "d.u.y", "number", "q"⟩
    (by decide) (by decide)
    (by
      intro u hu
      funext raw prev
      dsimp only
      rw [if_neg hu])
    (by
      intro raw prev
      exact ⟨"boom", rfl⟩)
  exact ⟨(h.1 "a" (by decide)).1, h.2.1, h.2.2.1, h.2.2.2.1⟩

/-- The whole tag loop preserves "every entry has `changed = false`" in both
the cache and the changed-set accumulator. -/
theorem pollFold_all_unchanged (compose : Tag → JVal → JVal → Except String JVal)
    (daqSave : Entry → Nat → Bool) (resolve : Tag → Option JVal) (hasAddDaq : Bool)
    (ts : Nat) (tags : List Tag) (st : List (String × Entry) × List (String × Entry))
    (h1 : st.1.all (fun p => !p.2.changed) = true)
    (h2 : st.2.all (fun p => !p.2.changed) = true) :
    (tags.foldl (processTag compose daqSave resolve hasAddDaq ts) st).1.all
      (fun p => !p.2.changed) = true ∧
    (tags.foldl (processTag compose daqSave resolve hasAddDaq ts) st).2.all
      (fun p => !p.2.changed) = true := by
  induction tags generalizing st with
  | nil => exact ⟨h1, h2⟩
  | cons t tsl ih =>
      rw [List.foldl_cons]
      apply ih
      · unfold processTag
        dsimp only
        cases hres : resolve t with
        | none => exact h1
        | some raw =>
            dsimp only
            cases hc : compose t raw (match alookup st.1 t.id with
                | some e => e.value
                | none => JVal.jnull) with
            | error e => exact h1
            | ok value => exact aupdate_all _ st.1 t.id _ h1 rfl
      · unfold processTag
        dsimp only
        cases hres : resolve t with
        | none => exact h2
        | some raw =>
            dsimp only
            cases hc : compose t raw (match alookup st.1 t.id with
                | some e => e.value
                | none => JVal.jnull) with
            | error e => exact h2
            | ok value =>
                dsimp only
                split
                · exact aupdate_all _ st.2 t.id _ h2 rfl
                · exact h2

/-- C10: if every cache entry enters the cycle with `changed = false` (as on
an empty or previously completed cache), then after a completed `polling()`
cycle every entry of the cache — which is exactly the payload of the
`device-value:changed` event and of later `getValues()`/`getValue()` reads —
has `changed = false`, and, through the shared reference, so does every entry
of the set handed to `addDaq`; the per-tag `changed` flag exists only
transiently inside the cycle: the DAQ write-worthiness check for a tag is
evaluated on the entry still carrying `changed = tagChanged` (visible in
`stepSaved`, which decides the tag's changed-set membership). -/
theorem claim10_changed_flag_false_after_cycle
    (compose : Tag → JVal → JVal → Except String JVal) (daqSave : Entry → Nat → Bool)
    (resolve : Tag → Option JVal) (hasAddDaq : Bool) (ts : Nat) (tags : List Tag)
    (cache : List (String × Entry))
    (hc : cache.all (fun p => !p.2.changed) = true) :
    (pollingCycle compose daqSave resolve hasAddDaq ts tags cache).cache.all
      (fun p => !p.2.changed) = true ∧
    (pollingCycle compose daqSave resolve hasAddDaq ts tags cache).changedSet.all
      (fun p => !p.2.changed) = true ∧
    (∀ t ∈ tags, (tags.map Tag.id).Nodup →
      alookup (pollingCycle compose daqSave resolve hasAddDaq ts tags cache).changedSet t.id =
        stepSaved compose daqSave resolve hasAddDaq ts t (alookup cache t.id)) := by
  have hall := pollFold_all_unchanged compose daqSave resolve hasAddDaq ts tags
    (cache, []) hc rfl
  refine ⟨hall.1, hall.2, ?_⟩
  intro t hmem hnd
  have h1 := pollFold_lookup compose daqSave resolve hasAddDaq ts tags (cache, []) t.id hnd
  unfold pollingCycle pollTags
  dsimp only
  rw [h1.2]
  cases hf : tags.find? (fun u => u.id == t.id) with
  | none =>
      exact absurd (List.find?_eq_none.mp hf t hmem) (by simp)
  | some u =>
      have hueq : u = t := List.inj_on_of_nodup_map hnd (List.mem_of_find?_eq_some hf)
        hmem (by simpa using List.find?_some hf)
      subst hueq
      dsimp only
      simp [alookup]

/-- Witness for C10: one tag, starting from the empty cache; after the cycle
both the cache and the DAQ set carry `changed = false` only, and the DAQ
membership equals the isolated step outcome. -/
theorem claim10_changed_flag_false_after_cycle_witness :
    (pollingCycle (fun _ raw _ => Except.ok raw) (fun _ _ => true)
        (fun _ => some (JVal.jnum 4)) true 7 [⟨"a", "A", "d.u.x", "number", "q"⟩]
        []).cache.all (fun p => !p.2.changed) = true ∧
    (pollingCycle (fun _ raw _ => Except.ok raw) (fun _ _ => true)
        (fun _ => some (JVal.jnum 4)) true 7 [⟨"a", "A", "d.u.x", "number", "q"⟩]
        []).changedSet.all (fun p => !p.2.changed) = true ∧
    alookup (pollingCycle (fun _ raw _ => Except.ok raw) (fun _ _ => true)
        (fun _ => some (JVal.jnum 4)) true 7 [⟨"a", "A", "d.u.x", "number", "q"⟩]
        []).changedSet "a" =
      stepSaved (fun _ raw _ => Except.ok raw) (fun _ _ => true)
        (fun _ => some (JVal.jnum 4)) true 7 ⟨"a", "A", "d.u.x", "number", "q"⟩ none := by
  have h := claim10_changed_flag_false_after_cycle (fun _ raw _ => Except.ok raw)
    (fun _ _ => true) (fun _ => some (JVal.jnum 4)) true 7
    [⟨"a", "A", "d.u.x", "number", "q"⟩] [] rfl
  exact ⟨h.1, h.2.1, h.2.2 ⟨"a", "A", "d.u.x", "number", "q"⟩ (by decide) (by decide)⟩

/-- The drivers' navigation loop is exactly pure path navigation: the
truthy-object guard admits precisely the non-null objects, which are the only
values with children. -/
theorem navLoop_eq_pureNav (segs : List String) (v : JVal) :
    navLoop v segs = pureNav v segs := by
  induction segs generalizing v with
  | nil => cases v <;> rfl
  | cons p ps ih =>
      cases v with
      | jnull => simp [navLoop, pureNav, JVal.truthy, JVal.isObjectType]
      | jbool b => cases b <;> simp [navLoop, pureNav, JVal.truthy, JVal.isObjectType, jsProp]
      | jnum n =>
          simp only [navLoop, pureNav, JVal.truthy, JVal.isObjectType, jsProp]
          split <;> rfl
      | jstr st =>
          simp only [navLoop, pureNav, JVal.truthy, JVal.isObjectType, jsProp]
          split <;> rfl
      | jobj o =>
          simp only [navLoop, pureNav, JVal.truthy, JVal.isObjectType, jsProp]
          rw [if_pos (by simp)]
          cases hf : JObj.find o p <;> simp [hf, ih]

/-- MPSClient's `_resolveTagValue`, characterized against the claim-side
path semantics: with fewer than three segments nothing resolves; otherwise
the result is the value at `DeviceName → Units → UnitKey → rest` when that
path fully exists and ends in a primitive, and `undefined` otherwise. -/
theorem mps_resolve_characterization (deviceStates : JObj) (tag : Tag) :
    MPS.resolveTagValue deviceStates tag =
      (if (jsSplitDot (tagAddress tag)).length < 3 then none
       else
        match pathValue deviceStates
            ((jsSplitDot (tagAddress tag)).getD 0 "" :: "Units" ::
              (jsSplitDot (tagAddress tag)).getD 1 "" ::
              (jsSplitDot (tagAddress tag)).drop 2) with
        | some v => if isPrimitive v then some v else none
        | none => none) := by
  unfold MPS.resolveTagValue
  dsimp only
  by_cases hlen : (jsSplitDot (tagAddress tag)).length < 3
  · rw [if_pos hlen, if_pos hlen]
  · rw [if_neg hlen, if_neg hlen]
    obtain ⟨p0, p1, p2, rest, hparts⟩ :
        ∃ p0 p1 p2 rest, jsSplitDot (tagAddress tag) = p0 :: p1 :: p2 :: rest := by
      rcases hp : jsSplitDot (tagAddress tag) with _ | ⟨a, _ | ⟨b, _ | ⟨c, r⟩⟩⟩
      · rw [hp] at hlen; simp at hlen
      · rw [hp] at hlen; simp at hlen
      · rw [hp] at hlen; simp at hlen
      · exact ⟨a, b, c, r, rfl⟩
    rw [hparts]
    dsimp only [List.getD_cons_zero, List.getD_cons_succ, List.drop_succ_cons, List.drop_zero]
    unfold pathValue
    simp only [pureNav]
    cases hf0 : JObj.find deviceStates p0 with
    | none => rfl
    | some devState =>
        cases devState with
        | jnull => simp [JVal.truthy, pureNav]
        | jbool b => cases b <;> simp [JVal.truthy, pureNav, jsProp]
        | jnum n =>
            simp only [JVal.truthy, jsProp]
            rw [show pureNav (JVal.jnum n) ("Units" :: p1 :: p2 :: rest) = none from rfl]
            split <;> rfl
        | jstr st =>
            simp only [JVal.truthy, jsProp]
            rw [show pureNav (JVal.jstr st) ("Units" :: p1 :: p2 :: rest) = none from rfl]
            split <;> rfl
        | jobj o =>
            simp only [JVal.truthy, jsProp, not_true_eq_false, if_false, pureNav]
            cases hf1 : JObj.find o "Units" with
            | none => rfl
            | some units =>
                cases units with
                | jnull => simp [JVal.truthy, pureNav]
                | jbool b => cases b <;> simp [JVal.truthy, pureNav, jsProp]
                | jnum n =>
                    simp only [JVal.truthy, jsProp]
                    rw [show pureNav (JVal.jnum n) (p1 :: p2 :: rest) = none from rfl]
                    split <;> rfl
                | jstr st =>
                    simp only [JVal.truthy, jsProp]
                    rw [show pureNav (JVal.jstr st) (p1 :: p2 :: rest) = none from rfl]
                    split <;> rfl
                | jobj uo =>
                    simp only [JVal.truthy, jsProp, not_true_eq_false, if_false, pureNav]
                    cases hf2 : JObj.find uo p1 with
                    | none => rfl
                    | some unit =>
                        cases unit with
                        | jnull => simp [JVal.truthy, pureNav]
                        | jbool b =>
                            cases b
                            · simp [JVal.truthy, pureNav]
                            · simp only [JVal.truthy, not_true_eq_false, if_false,
                                navLoop_eq_pureNav]
                              rw [show pureNav (JVal.jbool true) (p2 :: rest) = none from rfl]
                        | jnum n =>
                            simp only [JVal.truthy, navLoop_eq_pureNav]
                            rw [show pureNav (JVal.jnum n) (p2 :: rest) = none from rfl]
                            split <;> rfl
                        | jstr st =>
                            simp only [JVal.truthy, navLoop_eq_pureNav]
                            rw [show pureNav (JVal.jstr st) (p2 :: rest) = none from rfl]
                            split <;> rfl
                        | jobj w =>
                            simp only [JVal.truthy, not_true_eq_false, if_false,
                              navLoop_eq_pureNav]
                            cases hnav : pureNav (JVal.jobj w) (p2 :: rest) with
                            | none => rfl
                            | some v =>
                                cases hob : v.isObjectType <;> simp [isPrimitive, hob]

theorem matchObj_some_iff (o : Option JVal) (v : JVal) :
    (match o with
      | none => none
      | some u => if u.isObjectType then none else some u) = some v ↔
      (o = some v ∧ isPrimitive v = true) := by
  cases o with
  | none =>
      constructor
      · intro h
        cases h
      · rintro ⟨h, -⟩
        cases h
  | some u =>
      dsimp only
      cases hob : u.isObjectType
      · rw [if_neg (by simp)]
        constructor
        · intro h
          have huv := Option.some.inj h
          exact ⟨h, by rw [← huv]; simp [isPrimitive, hob]⟩
        · rintro ⟨h, -⟩
          exact h
      · rw [if_pos rfl]
        constructor
        · intro h
          cases h
        · rintro ⟨h, hp⟩
          have huv := Option.some.inj h
          rw [← huv] at hp
          simp [isPrimitive, hob] at hp

theorem matchPrim_some_iff (o : Option JVal) (v : JVal) :
    (match o with
      | some u => if isPrimitive u then some u else none
      | none => none) = some v ↔ (o = some v ∧ isPrimitive v = true) := by
  cases o with
  | none =>
      constructor
      · intro h
        cases h
      · rintro ⟨h, -⟩
        cases h
  | some u =>
      dsimp only
      cases hp : isPrimitive u
      · rw [if_neg (by simp)]
        constructor
        · intro h
          cases h
        · rintro ⟨h, hpv⟩
          have huv := Option.some.inj h
          rw [← huv] at hpv
          rw [hp] at hpv
          cases hpv
      · rw [if_pos rfl]
        constructor
        · intro h
          have huv := Option.some.inj h
          exact ⟨h, by rw [← huv]; exact hp⟩
        · rintro ⟨h, -⟩
          exact h

/-- C8 counterexample: EasyDrvClient's `tags` fallback returns a value for an
address whose path does not exist in the cached state tree. With
`luaState = { tags: { foo: 5 } }` and tag address `"foo"`, the path `foo`
resolves to nothing, yet `_resolveTagValue` returns `5` — the claim's
"returns undefined otherwise" fails. -/
theorem claim8_counterexample_tags_fallback :
    EasyDrv.resolveTagValue
        (JObj.cons "tags" (JVal.jobj (JObj.cons "foo" (JVal.jnum 5) JObj.nil)) JObj.nil)
        ⟨"t1", "", "foo", "number", ""⟩ = some (JVal.jnum 5) ∧
    pathValue (JObj.cons "tags" (JVal.jobj (JObj.cons "foo" (JVal.jnum 5) JObj.nil)) JObj.nil)
        (jsSplitDot (tagAddress ⟨"t1", "", "foo", "number", ""⟩)) = none ∧
    (some (JVal.jnum 5) : Option JVal) ≠ none := by
  refine ⟨by decide, by decide, by decide⟩

/-- C8 (amended): `_resolveTagValue` never raises (it is a total function).
MPSClient resolves a tag iff its address has at least 3 segments and the path
`DeviceName → Units → UnitKey → remaining segments` fully exists in the
cached device states with a primitive final value; otherwise undefined.
EasyDrvClient behaves the same way on the dotted path from the `luaState`
root for addresses with a dot at position > 0 — except that a literal
top-level key equal to the whole address is returned first when its value is
primitive — and for other addresses falls back to `luaState.tags[addr]`;
otherwise undefined. In `polling()`, a tag whose resolution is undefined is
skipped without being treated as an error: its cache entry is untouched and
the cycle still emits. -/
theorem claim8_resolve_dotted_path_amended :
    (∀ (deviceStates : JObj) (tag : Tag) (v : JVal),
      MPS.resolveTagValue deviceStates tag = some v ↔
        (3 ≤ (jsSplitDot (tagAddress tag)).length ∧
          pathValue deviceStates
            ((jsSplitDot (tagAddress tag)).getD 0 "" :: "Units" ::
              (jsSplitDot (tagAddress tag)).getD 1 "" ::
              (jsSplitDot (tagAddress tag)).drop 2) = some v ∧
          isPrimitive v = true)) ∧
    (∀ (luaState : JObj) (tag : Tag) (v : JVal),
      jsIndexOfDot (tagAddress tag) > 0 →
      (∀ w, JObj.find luaState (tagAddress tag) = some w → w.isObjectType = true) →
      (EasyDrv.resolveTagValue luaState tag = some v ↔
        (pathValue luaState (jsSplitDot (tagAddress tag)) = some v ∧
          isPrimitive v = true))) ∧
    (∀ (luaState : JObj) (tag : Tag) (w : JVal),
      JObj.find luaState (tagAddress tag) = some w → isPrimitive w = true →
      EasyDrv.resolveTagValue luaState tag = some w) ∧
    (∀ (luaState : JObj) (tag : Tag),
      ¬ jsIndexOfDot (tagAddress tag) > 0 →
      JObj.find luaState (tagAddress tag) = none →
      EasyDrv.resolveTagValue luaState tag =
        (match JObj.find luaState "tags" with
          | some tags => if tags.truthy then jsProp tags (tagAddress tag) else none
          | none => none)) ∧
    (∀ (compose : Tag → JVal → JVal → Except String JVal) (daqSave : Entry → Nat → Bool)
      (resolve : Tag → Option JVal) (hasAddDaq : Bool) (ts : Nat) (tags : List Tag)
      (cache : List (String × Entry)) (t : Tag),
      (tags.map Tag.id).Nodup → t ∈ tags → resolve t = none →
      alookup (pollingCycle compose daqSave resolve hasAddDaq ts tags cache).cache t.id =
        alookup cache t.id ∧
      (pollingCycle compose daqSave resolve hasAddDaq ts tags cache).emittedValues = true) := by
  refine ⟨?_, ?_, ?_, ?_, ?_⟩
  · intro deviceStates tag v
    rw [mps_resolve_characterization]
    by_cases hlen : (jsSplitDot (tagAddress tag)).length < 3
    · rw [if_pos hlen]
      constructor
      · intro h
        cases h
      · rintro ⟨h3, -, -⟩
        omega
    · rw [if_neg hlen]
      rw [matchPrim_some_iff]
      constructor
      · rintro ⟨hp, hv⟩
        exact ⟨by omega, hp, hv⟩
      · rintro ⟨-, hp, hv⟩
        exact ⟨hp, hv⟩
  · intro luaState tag v hdot hlit
    have hrest : EasyDrv.resolveRest luaState (tagAddress tag) =
        (match pathValue luaState (jsSplitDot (tagAddress tag)) with
          | none => none
          | some u => if u.isObjectType then none else some u) := by
      unfold EasyDrv.resolveRest
      rw [if_pos hdot, navLoop_eq_pureNav]
      rfl
    unfold EasyDrv.resolveTagValue
    dsimp only
    cases hfl : JObj.find luaState (tagAddress tag) with
    | none =>
        rw [hrest, matchObj_some_iff]
    | some w =>
        dsimp only
        have hob := hlit w hfl
        rw [if_neg (by simp [hob]), hrest, matchObj_some_iff]
  · intro luaState tag w hfind hprim
    unfold EasyDrv.resolveTagValue
    dsimp only
    rw [hfind]
    dsimp only
    have hob : w.isObjectType = false := by
      simpa [isPrimitive] using hprim
    rw [if_pos (by simp [hob])]
  · intro luaState tag hdot hfind
    unfold EasyDrv.resolveTagValue EasyDrv.resolveRest
    dsimp only
    rw [hfind, if_neg hdot]
  · intro compose daqSave resolve hasAddDaq ts tags cache t hnd hmem hres
    refine ⟨?_, rfl⟩
    have h1 := pollFold_lookup compose daqSave resolve hasAddDaq ts tags (cache, []) t.id hnd
    unfold pollingCycle pollTags
    dsimp only
    rw [h1.1]
    cases hf : tags.find? (fun u => u.id == t.id) with
    | none => rfl
    | some u =>
        have hueq : u = t := List.inj_on_of_nodup_map hnd (List.mem_of_find?_eq_some hf)
          hmem (by simpa using List.find?_some hf)
        subst hueq
        dsimp only
        have hnone : ∀ p, stepEntry compose resolve ts u p = none := by
          intro p
          unfold stepEntry
          rw [hres]
        rw [hnone]
        rfl

/-- Witness for the amended C8: concrete state trees for both drivers, a
resolvable 3-segment MPS address, a resolvable dotted EasyDrv address, the
EasyDrv literal-key rule, and a poll cycle skipping an unresolvable tag. -/
theorem claim8_resolve_dotted_path_amended_witness :
    MPS.resolveTagValue
        (JObj.cons "A" (JVal.jobj (JObj.cons "Units" (JVal.jobj (JObj.cons "u1"
          (JVal.jobj (JObj.cons "ST" (JVal.jnum 7) JObj.nil)) JObj.nil)) JObj.nil)) JObj.nil)
        ⟨"t", "", "A.u1.ST", "number", ""⟩ = some (JVal.jnum 7) ∧
    EasyDrv.resolveTagValue
        (JObj.cons "V1" (JVal.jobj (JObj.cons "ST" (JVal.jnum 3) JObj.nil)) JObj.nil)
        ⟨"t", "", "V1.ST", "number", ""⟩ = some (JVal.jnum 3) ∧
    EasyDrv.resolveTagValue (JObj.cons "k" (JVal.jstr "w") JObj.nil)
        ⟨"t", "", "k", "string", ""⟩ = some (JVal.jstr "w") ∧
    alookup (pollingCycle (fun _ raw _ => Except.ok raw) (fun _ _ => true) (fun _ => none)
        true 7 [⟨"a", "A", "x.y", "number", "q"⟩] []).cache "a" = none := by
  refine ⟨?_, ?_, ?_, ?_⟩
  · exact (claim8_resolve_dotted_path_amended.1 _ _ _).mpr ⟨by decide, by decide, by decide⟩
  · exact (claim8_resolve_dotted_path_amended.2.1 _ _ (JVal.jnum 3) (by decide)
      (by
        intro w hw
        rw [show JObj.find (JObj.cons "V1" (JVal.jobj (JObj.cons "ST" (JVal.jnum 3) JObj.nil))
          JObj.nil) (tagAddress ⟨"t", "", "V1.ST", "number", ""⟩) = none by decide] at hw
        cases hw)).mpr ⟨by decide, by decide⟩
  · exact claim8_resolve_dotted_path_amended.2.2.1 _ _ (JVal.jstr "w") (by decide) (by decide)
  · exact (claim8_resolve_dotted_path_amended.2.2.2.2 (fun _ raw _ => Except.ok raw)
      (fun _ _ => true) (fun _ => none) true 7 [⟨"a", "A", "x.y", "number", "q"⟩] []
      ⟨"a", "A", "x.y", "number", "q"⟩ (by decide) (by decide) rfl).1

theorem readStackValue_depth_gt (heap : Lua.Heap) (v : Lua.LuaVal) (d : Nat) (h : d > 10) :
    Lua.readStackValue heap v d = none := by
  unfold Lua.readStackValue
  rw [dif_pos h]

theorem readTable_depth_gt (heap : Lua.Heap) (r : Nat) (d : Nat) (h : d > 10) :
    Lua.readTable heap r d = none := by
  unfold Lua.readTable
  rw [dif_pos h]

theorem readEntries_depth_gt (heap : Lua.Heap) (entries : List (Lua.LuaKey × Lua.LuaVal))
    (d : Nat) (h : d > 10) : Lua.readEntries heap entries d = Lua.JsObjList.nil := by
  induction entries with
  | nil => rw [Lua.readEntries]
  | cons e rest ih =>
      obtain ⟨k, v⟩ := e
      cases k with
      | kstr s =>
          rw [Lua.readEntries, readStackValue_depth_gt heap v d h, ih]
          rfl
      | knum n =>
          rw [Lua.readEntries, readStackValue_depth_gt heap v d h, ih]
          rfl
      | kother =>
          rw [Lua.readEntries, ih]

/-- The joint depth bound for the three mutually recursive readers, proved by
downward induction on the remaining depth budget `11 - d`. -/
theorem lua_depth_bound : ∀ m : Nat, ∀ d : Nat, 11 - d ≤ m →
    (∀ (heap : Lua.Heap) (v : Lua.LuaVal) (j : Lua.JsVal),
      Lua.readStackValue heap v d = some j → Lua.jsDepth j ≤ 10 - d) ∧
    (∀ (heap : Lua.Heap) (entries : List (Lua.LuaKey × Lua.LuaVal)),
      Lua.objDepth (Lua.readEntries heap entries d) ≤ 10 - d) ∧
    (∀ (heap : Lua.Heap) (r : Nat) (j : Lua.JsVal),
      Lua.readTable heap r d = some j → Lua.jsDepth j ≤ 11 - d) := by
  have hguard : ∀ d : Nat, d > 10 →
      (∀ (heap : Lua.Heap) (v : Lua.LuaVal) (j : Lua.JsVal),
        Lua.readStackValue heap v d = some j → Lua.jsDepth j ≤ 10 - d) ∧
      (∀ (heap : Lua.Heap) (entries : List (Lua.LuaKey × Lua.LuaVal)),
        Lua.objDepth (Lua.readEntries heap entries d) ≤ 10 - d) ∧
      (∀ (heap : Lua.Heap) (r : Nat) (j : Lua.JsVal),
        Lua.readTable heap r d = some j → Lua.jsDepth j ≤ 11 - d) := by
    intro d hd
    refine ⟨?_, ?_, ?_⟩
    · intro heap v j h
      rw [readStackValue_depth_gt heap v d hd] at h
      cases h
    · intro heap entries
      rw [readEntries_depth_gt heap entries d hd]
      simp [Lua.objDepth]
    · intro heap r j h
      rw [readTable_depth_gt heap r d hd] at h
      cases h
  intro m
  induction m with
  | zero =>
      intro d hd
      exact hguard d (by omega)
  | succ m ih =>
      intro d hd
      by_cases hd10 : d > 10
      · exact hguard d hd10
      · have IH := ih (d + 1) (by omega)
        have hP : ∀ (heap : Lua.Heap) (v : Lua.LuaVal) (j : Lua.JsVal),
            Lua.readStackValue heap v d = some j → Lua.jsDepth j ≤ 10 - d := by
          intro heap v j h
          unfold Lua.readStackValue at h
          rw [dif_neg hd10] at h
          cases v with
          | lnil =>
              cases h
              simp [Lua.jsDepth]
          | lbool b =>
              cases h
              simp [Lua.jsDepth]
          | lnum n =>
              cases h
              simp [Lua.jsDepth]
          | lstr st =>
              cases h
              simp [Lua.jsDepth]
          | ltable r =>
              have := IH.2.2 heap r j h
              omega
          | lother => cases h
        have hE : ∀ (heap : Lua.Heap) (entries : List (Lua.LuaKey × Lua.LuaVal)),
            Lua.objDepth (Lua.readEntries heap entries d) ≤ 10 - d := by
          intro heap entries
          induction entries with
          | nil =>
              rw [Lua.readEntries]
              simp [Lua.objDepth]
          | cons e rest ihe =>
              obtain ⟨k, v⟩ := e
              cases k with
              | kstr s =>
                  rw [Lua.readEntries]
                  cases hv : Lua.readStackValue heap v d with
                  | none =>
                      rw [Lua.pushEntry]
                      exact ihe
                  | some j =>
                      have hj := hP heap v j hv
                      rw [Lua.pushEntry]
                      simp only [Lua.objDepth]
                      omega
              | knum n =>
                  rw [Lua.readEntries]
                  cases hv : Lua.readStackValue heap v d with
                  | none =>
                      rw [Lua.pushEntry]
                      exact ihe
                  | some j =>
                      have hj := hP heap v j hv
                      rw [Lua.pushEntry]
                      simp only [Lua.objDepth]
                      omega
              | kother =>
                  rw [Lua.readEntries]
                  exact ihe
        have hT : ∀ (heap : Lua.Heap) (r : Nat) (j : Lua.JsVal),
            Lua.readTable heap r d = some j → Lua.jsDepth j ≤ 11 - d := by
          intro heap r j h
          unfold Lua.readTable at h
          rw [dif_neg hd10] at h
          cases h
          have := hE heap (Lua.tableEntries heap r)
          simp only [Lua.jsDepth]
          omega
        exact ⟨hP, hE, hT⟩

/-- C7: the Lua-state extraction is depth-bounded and total: `_readStackValue`
and `_readTable` are total Lean functions, defined for every heap — including
cyclic tables, representable through table references — and the plain
string/number/boolean/null tree read back from a global (conversion starting
at depth 0) has nesting depth at most 10: any subtree nested deeper is
replaced by `undefined` and omitted; at any depth beyond the bound both
readers return `undefined` outright. -/
theorem claim7_lua_extraction_depth_bounded :
    (∀ (heap : Lua.Heap) (v : Lua.LuaVal) (j : Lua.JsVal),
      Lua.getGlobal heap v = some j → Lua.jsDepth j ≤ 10) ∧
    (∀ (heap : Lua.Heap) (v : Lua.LuaVal) (depth : Nat), depth > 10 →
      Lua.readStackValue heap v depth = none) ∧
    (∀ (heap : Lua.Heap) (r : Nat) (depth : Nat), depth > 10 →
      Lua.readTable heap r depth = none) := by
  refine ⟨?_, ?_, ?_⟩
  · intro heap v j h
    have := (lua_depth_bound 11 0 (by omega)).1 heap v j h
    omega
  · intro heap v depth hd
    exact readStackValue_depth_gt heap v depth hd
  · intro heap r depth hd
    exact readTable_depth_gt heap r depth hd

/-- Witness for C7 on a cyclic table (`t.self = t`): extraction terminates
with a tree of exactly 10 nested objects (the deeper repetition is cut off
and omitted), whose depth is within the bound; directly at depth 11 the
reader yields `undefined`. -/
theorem claim7_lua_extraction_depth_bounded_witness :
    Lua.getGlobal [[(Lua.LuaKey.kstr "self", Lua.LuaVal.ltable 0)]] (Lua.LuaVal.ltable 0) =
      some (Lua.JsVal.obj (Lua.JsObjList.cons (Lua.JsKey.str "self") (Lua.JsVal.obj (Lua.JsObjList.cons (Lua.JsKey.str "self") (Lua.JsVal.obj (Lua.JsObjList.cons (Lua.JsKey.str "self") (Lua.JsVal.obj (Lua.JsObjList.cons (Lua.JsKey.str "self") (Lua.JsVal.obj (Lua.JsObjList.cons (Lua.JsKey.str "self") (Lua.JsVal.obj (Lua.JsObjList.cons (Lua.JsKey.str "self") (Lua.JsVal.obj (Lua.JsObjList.cons (Lua.JsKey.str "self") (Lua.JsVal.obj (Lua.JsObjList.cons (Lua.JsKey.str "self") (Lua.JsVal.obj (Lua.JsObjList.cons (Lua.JsKey.str "self") (Lua.JsVal.obj Lua.JsObjList.nil) Lua.JsObjList.nil)) Lua.JsObjList.nil)) Lua.JsObjList.nil)) Lua.JsObjList.nil)) Lua.JsObjList.nil)) Lua.JsObjList.nil)) Lua.JsObjList.nil)) Lua.JsObjList.nil)) Lua.JsObjList.nil)) ∧
    Lua.jsDepth (Lua.JsVal.obj (Lua.JsObjList.cons (Lua.JsKey.str "self") (Lua.JsVal.obj (Lua.JsObjList.cons (Lua.JsKey.str "self") (Lua.JsVal.obj (Lua.JsObjList.cons (Lua.JsKey.str "self") (Lua.JsVal.obj (Lua.JsObjList.cons (Lua.JsKey.str "self") (Lua.JsVal.obj (Lua.JsObjList.cons (Lua.JsKey.str "self") (Lua.JsVal.obj (Lua.JsObjList.cons (Lua.JsKey.str "self") (Lua.JsVal.obj (Lua.JsObjList.cons (Lua.JsKey.str "self") (Lua.JsVal.obj (Lua.JsObjList.cons (Lua.JsKey.str "self") (Lua.JsVal.obj (Lua.JsObjList.cons (Lua.JsKey.str "self") (Lua.JsVal.obj Lua.JsObjList.nil) Lua.JsObjList.nil)) Lua.JsObjList.nil)) Lua.JsObjList.nil)) Lua.JsObjList.nil)) Lua.JsObjList.nil)) Lua.JsObjList.nil)) Lua.JsObjList.nil)) Lua.JsObjList.nil)) Lua.JsObjList.nil)) ≤ 10 ∧
    Lua.readStackValue [[(Lua.LuaKey.kstr "self", Lua.LuaVal.ltable 0)]]
      (Lua.LuaVal.ltable 0) 11 = none := by
  have hsome : Lua.getGlobal [[(Lua.LuaKey.kstr "self", Lua.LuaVal.ltable 0)]]
      (Lua.LuaVal.ltable 0) = some (Lua.JsVal.obj (Lua.JsObjList.cons (Lua.JsKey.str "self") (Lua.JsVal.obj (Lua.JsObjList.cons (Lua.JsKey.str "self") (Lua.JsVal.obj (Lua.JsObjList.cons (Lua.JsKey.str "self") (Lua.JsVal.obj (Lua.JsObjList.cons (Lua.JsKey.str "self") (Lua.JsVal.obj (Lua.JsObjList.cons (Lua.JsKey.str "self") (Lua.JsVal.obj (Lua.JsObjList.cons (Lua.JsKey.str "self") (Lua.JsVal.obj (Lua.JsObjList.cons (Lua.JsKey.str "self") (Lua.JsVal.obj (Lua.JsObjList.cons (Lua.JsKey.str "self") (Lua.JsVal.obj (Lua.JsObjList.cons (Lua.JsKey.str "self") (Lua.JsVal.obj Lua.JsObjList.nil) Lua.JsObjList.nil)) Lua.JsObjList.nil)) Lua.JsObjList.nil)) Lua.JsObjList.nil)) Lua.JsObjList.nil)) Lua.JsObjList.nil)) Lua.JsObjList.nil)) Lua.JsObjList.nil)) Lua.JsObjList.nil)) := by
    simp [Lua.getGlobal, Lua.readStackValue, Lua.readTable, Lua.readEntries,
      Lua.tableEntries, Lua.pushEntry]
  refine ⟨hsome, ?_, ?_⟩
  · exact claim7_lua_extraction_depth_bounded.1 [[(Lua.LuaKey.kstr "self", Lua.LuaVal.ltable 0)]]
      (Lua.LuaVal.ltable 0) (Lua.JsVal.obj (Lua.JsObjList.cons (Lua.JsKey.str "self") (Lua.JsVal.obj (Lua.JsObjList.cons (Lua.JsKey.str "self") (Lua.JsVal.obj (Lua.JsObjList.cons (Lua.JsKey.str "self") (Lua.JsVal.obj (Lua.JsObjList.cons (Lua.JsKey.str "self") (Lua.JsVal.obj (Lua.JsObjList.cons (Lua.JsKey.str "self") (Lua.JsVal.obj (Lua.JsObjList.cons (Lua.JsKey.str "self") (Lua.JsVal.obj (Lua.JsObjList.cons (Lua.JsKey.str "self") (Lua.JsVal.obj (Lua.JsObjList.cons (Lua.JsKey.str "self") (Lua.JsVal.obj (Lua.JsObjList.cons (Lua.JsKey.str "self") (Lua.JsVal.obj Lua.JsObjList.nil) Lua.JsObjList.nil)) Lua.JsObjList.nil)) Lua.JsObjList.nil)) Lua.JsObjList.nil)) Lua.JsObjList.nil)) Lua.JsObjList.nil)) Lua.JsObjList.nil)) Lua.JsObjList.nil)) Lua.JsObjList.nil)) hsome
  · exact claim7_lua_extraction_depth_bounded.2.1
      [[(Lua.LuaKey.kstr "self", Lua.LuaVal.ltable 0)]] (Lua.LuaVal.ltable 0) 11 (by omega)

end Fuxa
